import Mathlib

/-!
# GOuge: the metrics sampling cycle of `main.go`

A shallow embedding of `updateSystemMetrics`, the ticker loop of `onReady`
and `getIcon`, with an exact model of the float64 arithmetic and of the
`fmt` verbs the program uses.

* A finite float64 is represented by the rational number it denotes.  `f64`
  rounds a rational to the nearest float64 (53 significant bits, ties to
  even).  Every value the program computes lies in the normal range
  `2^-1022 ≤ |x| < 2^1024` (or is zero), where this is exactly IEEE-754
  rounding.
* An unsigned 64-bit integer is a natural number; arithmetic on it is taken
  modulo `2^64`.  A signed 64-bit integer is an integer wrapped by `wrapInt64`.
* A Go `error` is represented by the text `err.Error()` returns.
-/

namespace GOuge

/-! ## float64 arithmetic -/

/-- Round a rational to the nearest integer, ties to the even one. -/
def roundHalfEven (y : ℚ) : ℤ :=
  let f := ⌊y⌋
  let r := y - f
  if r < 1 / 2 then f else if 1 / 2 < r then f + 1 else if f % 2 = 0 then f else f + 1

/-- Round a rational to the nearest float64: the significand is scaled to
`[2^52, 2^53)` and rounded to an integer, ties to even. -/
def f64 (x : ℚ) : ℚ :=
  if x = 0 then 0 else
    let u : ℚ := (2 : ℚ) ^ (Int.log 2 |x| - 52)
    (roundHalfEven (x / u) : ℚ) * u

/-- Go conversion `float64(n)` of an integer. -/
def f64OfInt (i : ℤ) : ℚ := f64 (i : ℚ)

/-- Go conversion `float64(n)` of a `uint64`. -/
def f64OfUint64 (n : ℕ) : ℚ := f64 (n : ℚ)

/-- float64 addition. -/
def f64Add (a b : ℚ) : ℚ := f64 (a + b)

/-- float64 division. -/
def f64Div (a b : ℚ) : ℚ := f64 (a / b)

/-- Go conversion `int(x)` of a float64: the fraction is discarded. -/
def truncToInt (x : ℚ) : ℤ := if 0 ≤ x then ⌊x⌋ else ⌈x⌉

/-! ## machine integers -/

/-- Wrap an integer into the range of `int64`. -/
def wrapInt64 (i : ℤ) : ℤ := (i + 2 ^ 63) % 2 ^ 64 - 2 ^ 63

/-- Subtraction of `uint64` values. -/
def subUint64 (a b : ℕ) : ℕ := (a % 2 ^ 64 + 2 ^ 64 - b % 2 ^ 64) % 2 ^ 64

/-! ## formatting -/

/-- The decimal digit `d % 10` as a character. -/
def digitChar (d : ℕ) : Char := Char.ofNat (48 + d % 10)

/-- The last `p` decimal digits of `r`, most significant first. -/
def fracDigits : ℕ → ℕ → List Char
  | 0, _ => []
  | p + 1, r => digitChar (r / 10 ^ p) :: fracDigits p r

/-- The verb `%.<prec>f` of `fmt` on a finite float64: the exact value is
rounded to `prec` decimals, ties to even, as `strconv` does. -/
def fmtFloat (prec : ℕ) (x : ℚ) : String :=
  let k := (roundHalfEven (|x| * 10 ^ prec)).toNat
  (if x < 0 then "-" else "") ++ toString (k / 10 ^ prec) ++
    (if prec = 0 then "" else "." ++ String.mk (fracDigits prec k))

/-- The verb `%d` of `fmt` on an `int`. -/
def fmtInt (i : ℤ) : String := toString i

/-! ## uptime -/

/-- The constant `time.Second`, in nanoseconds. -/
def Second : ℤ := 1000000000

/-- The constant `time.Minute`, in nanoseconds. -/
def Minute : ℤ := 60 * Second

/-- The constant `time.Hour`, in nanoseconds. -/
def Hour : ℤ := 60 * Minute

/-- The method `Duration.Hours`:
`float64(d / Hour) + float64(d % Hour) / (60 * 60 * 1e9)`. -/
def Hours (d : ℤ) : ℚ :=
  f64Add (f64OfInt (d.tdiv Hour)) (f64Div (f64OfInt (d.tmod Hour)) (60 * 60 * 1000000000))

/-- The method `Duration.Minutes`:
`float64(d / Minute) + float64(d % Minute) / (60 * 1e9)`. -/
def Minutes (d : ℤ) : ℚ :=
  f64Add (f64OfInt (d.tdiv Minute)) (f64Div (f64OfInt (d.tmod Minute)) (60 * 1000000000))

/-- The value `time.Duration(uptimeSeconds) * time.Second` of
`updateSystemMetrics`, for `uptimeSeconds` a `uint64`. -/
def uptimeDuration (uptimeSeconds : ℕ) : ℤ :=
  wrapInt64 (wrapInt64 (uptimeSeconds : ℤ) * Second)

/-- The string `uptimeString` of `updateSystemMetrics`. -/
def uptimeString (uptimeSeconds : ℕ) : String :=
  let d := uptimeDuration uptimeSeconds
  fmtInt ((truncToInt (Hours d)).tdiv 24) ++ " d, " ++
    fmtInt ((truncToInt (Hours d)).tmod 24) ++ " h, " ++
    fmtInt ((truncToInt (Minutes d)).tmod 60) ++ " m"

/-! ## network rate -/

/-- The expression `float64(cur - prev) / 1024 / 1024 / 2` on `uint64`
counters. -/
def netSpeed (prev cur : ℕ) : ℚ :=
  f64Div (f64Div (f64Div (f64OfUint64 (subUint64 cur prev)) 1024) 1024) 2

/-- The variable `netSentSpeed` of `updateSystemMetrics`: zero unless both
previous counters are non-zero. -/
def netSentSpeed (prevNetSent prevNetRecv curSent : ℕ) : ℚ :=
  if prevNetSent ≠ 0 ∧ prevNetRecv ≠ 0 then netSpeed prevNetSent curSent else 0

/-- The variable `netRecvSpeed` of `updateSystemMetrics`. -/
def netRecvSpeed (prevNetSent prevNetRecv curRecv : ℕ) : ℚ :=
  if prevNetSent ≠ 0 ∧ prevNetRecv ≠ 0 then netSpeed prevNetRecv curRecv else 0

/-- The string `networkUsage` of a cycle whose network query succeeded. -/
def networkUsage (prevNetSent prevNetRecv curSent curRecv : ℕ) : String :=
  "Sent: " ++ fmtFloat 2 (netSentSpeed prevNetSent prevNetRecv curSent) ++
    " MB/s, Received: " ++ fmtFloat 2 (netRecvSpeed prevNetSent prevNetRecv curRecv) ++ " MB/s"

/-! ## the sampling cycle -/

/-- The five menu items whose title the sampler sets. -/
inductive Item
  | mCPU | mRAM | mDisk | mNetwork | mUptime
  deriving DecidableEq, Repr

/-- Observable actions of the ticker goroutine. -/
inductive Event
  /-- One call of `log.Println`, with the text of the entry. -/
  | log (msg : String)
  /-- One call of `SetTitle` on a menu item. -/
  | setTitle (item : Item) (text : String)
  /-- One call of `time.Sleep`, with the duration in nanoseconds. -/
  | sleep (ns : ℤ)
  deriving DecidableEq, Repr

/-- The titles of the five menu items. -/
structure Menu where
  mCPU : String
  mRAM : String
  mDisk : String
  mNetwork : String
  mUptime : String
  deriving DecidableEq, Repr

/-- The state the ticker goroutine acts on: the two package variables, the
menu titles, and the actions performed so far (oldest first). -/
structure World where
  prevNetSent : ℕ
  prevNetRecv : ℕ
  menu : Menu
  trace : List Event
  deriving DecidableEq, Repr

/-- One element of the slice `net.IOCounters` returns. -/
structure IOCountersStat where
  BytesSent : ℕ
  BytesRecv : ℕ
  deriving DecidableEq, Repr

/-- What the five operating-system queries of one cycle answer: a value, or
the text of the error. -/
structure Sample where
  /-- The call `cpu.Percent(time.Second, false)`. -/
  cpu : Except String (List ℚ)
  /-- The field `UsedPercent` of `mem.VirtualMemory()`. -/
  mem : Except String ℚ
  /-- The field `UsedPercent` of `disk.Usage("/")`. -/
  disk : Except String ℚ
  /-- The call `host.Uptime()`. -/
  uptime : Except String ℕ
  /-- The call `net.IOCounters(false)`. -/
  net : Except String (List IOCountersStat)

/-- Apply `SetTitle` to one menu item. -/
def Menu.set (m : Menu) : Item → String → Menu
  | .mCPU, t => { m with mCPU := t }
  | .mRAM, t => { m with mRAM := t }
  | .mDisk, t => { m with mDisk := t }
  | .mNetwork, t => { m with mNetwork := t }
  | .mUptime, t => { m with mUptime := t }

/-- Perform `log.Println` with the operands joined by a blank. -/
def World.logPrintln (w : World) (msg : String) : World :=
  { w with trace := w.trace ++ [Event.log msg] }

/-- Perform `SetTitle` on one menu item. -/
def World.setTitle (w : World) (item : Item) (text : String) : World :=
  { w with menu := w.menu.set item text, trace := w.trace ++ [Event.setTitle item text] }

/-- Perform `time.Sleep`. -/
def World.timeSleep (w : World) (ns : ℤ) : World :=
  { w with trace := w.trace ++ [Event.sleep ns] }

/-- The final five `SetTitle` calls of `updateSystemMetrics`. -/
def setTitles (w : World) (cpu0 mem disk : ℚ) (network uptime : String) : World :=
  ((((w.setTitle .mCPU ("CPU: " ++ fmtFloat 1 cpu0 ++ "%")).setTitle
    .mRAM ("RAM: " ++ fmtFloat 1 mem ++ "%")).setTitle
    .mDisk ("Disk: " ++ fmtFloat 1 disk ++ "%")).setTitle
    .mNetwork ("Network: " ++ network)).setTitle
    .mUptime ("Uptime: " ++ uptime)

/-- The function `updateSystemMetrics`.  The result is `none` when the
goroutine panics on `netIOCounters[0]` or `cpuUsage[0]` of an empty slice. -/
def updateSystemMetrics (q : Sample) (w : World) : Option World :=
  match q.cpu with
  | .error err => some (w.logPrintln ("Error getting CPU usage: " ++ err))
  | .ok cpuUsage =>
    match q.mem with
    | .error err => some (w.logPrintln ("Error getting memory info: " ++ err))
    | .ok memUsedPercent =>
      match q.disk with
      | .error err => some (w.logPrintln ("Error getting disk info: " ++ err))
      | .ok diskUsedPercent =>
        match q.uptime with
        | .error err => some (w.logPrintln ("Error getting system uptime: " ++ err))
        | .ok uptimeSeconds =>
          let uptime := uptimeString uptimeSeconds
          match q.net with
          | .error err =>
            let w1 := w.logPrintln ("Error getting network info: " ++ err)
            match cpuUsage with
            | [] => none
            | cpu0 :: _ => some (setTitles w1 cpu0 memUsedPercent diskUsedPercent "N/A" uptime)
          | .ok netIOCounters =>
            match netIOCounters with
            | [] => none
            | c :: _ =>
              let usage := networkUsage w.prevNetSent w.prevNetRecv c.BytesSent c.BytesRecv
              let w1 := { w with prevNetSent := c.BytesSent, prevNetRecv := c.BytesRecv }
              match cpuUsage with
              | [] => none
              | cpu0 :: _ => some (setTitles w1 cpu0 memUsedPercent diskUsedPercent usage uptime)

/-! ## the ticker of `onReady` -/

/-- The titles the menu items are created with in `onReady`. -/
def initialMenu : Menu :=
  { mCPU := "CPU: -", mRAM := "RAM: -", mDisk := "Disk: -",
    mNetwork := "Network: -", mUptime := "Uptime: -" }

/-- The state when `onReady` starts the ticker goroutine: the menu as created
and both previous counters cleared. -/
def readyWorld : World :=
  { prevNetSent := 0, prevNetRecv := 0, menu := initialMenu, trace := [] }

/-- The first `n` iterations of the ticker loop
`for { updateSystemMetrics(...); time.Sleep(2 * time.Second) }`,
where `samples i` is what the queries of iteration `i` answer. -/
def tickerLoop : ℕ → (ℕ → Sample) → World → Option World
  | 0, _, w => some w
  | n + 1, samples, w =>
    match updateSystemMetrics (samples 0) w with
    | none => none
    | some w1 => tickerLoop n (fun i => samples (i + 1)) (w1.timeSleep (2 * Second))

/-! ## icon lookup -/

/-- The initial value of `possiblePaths` in `getIcon`. -/
def possiblePaths : List String :=
  ["gouge.png", "Resources/gouge.png", "../Resources/gouge.png",
   "gouge.icns", "Resources/gouge.icns", "../Resources/gouge.icns"]

/-- The paths `getIcon` appends when `os.Executable` succeeds; `join` is
`filepath.Join`. -/
def execPaths (join : List String → String) (execDir : String) : List String :=
  [join [execDir, "gouge.png"], join [execDir, "Resources", "gouge.png"],
   join [execDir, "..", "Resources", "gouge.png"],
   join [execDir, "gouge.icns"], join [execDir, "Resources", "gouge.icns"],
   join [execDir, "..", "Resources", "gouge.icns"]]

/-- The candidate paths of `getIcon`, in probing order; `dir` is
`filepath.Dir` and `executable` the answer of `os.Executable`. -/
def candidatePaths (join : List String → String) (dir : String → String)
    (executable : Except String String) : List String :=
  match executable with
  | .ok execPath => possiblePaths ++ execPaths join (dir execPath)
  | .error _ => possiblePaths

/-- The probing loop of `getIcon` over the remaining paths; `readFile` is
`os.ReadFile` on the file system at hand, `logs` the entries written so far. -/
def probe (readFile : String → Except String (List ℕ)) :
    List String → List String → Except String (List ℕ) × List String
  | [], logs => (.error "icon file not found in any of the expected locations", logs)
  | path :: rest, logs =>
    let logs1 := logs ++ ["Trying to load icon from: " ++ path]
    match readFile path with
    | .ok icon =>
      (.ok icon, logs1 ++ ["Icon found at: " ++ path ++ ", size: " ++
        fmtInt icon.length ++ " bytes"])
    | .error err =>
      probe readFile rest (logs1 ++ ["Failed to load icon from " ++ path ++ ": " ++ err])

/-- The function `getIcon`: the icon bytes or the error, and the log entries
written. -/
def getIcon (join : List String → String) (dir : String → String)
    (executable : Except String String) (readFile : String → Except String (List ℕ)) :
    Except String (List ℕ) × List String :=
  probe readFile (candidatePaths join dir executable) []

/-! ## definitions used to state the properties -/

/-- Tenths `k` written with one decimal and a percent sign. -/
def renderTenths (k : ℕ) : String :=
  toString (k / 10) ++ "." ++ String.singleton (digitChar k) ++ "%"

/-- Rounding to the nearest integer with halves going up, the rounding the
specification calls standard. -/
def roundHalfUp (y : ℚ) : ℤ := ⌊y + 1 / 2⌋

/-- Whether a query answered with an error. -/
def failed {α : Type} : Except String α → Bool
  | .error _ => true
  | .ok _ => false

/-- Whether an action is a `SetTitle` call. -/
def Event.isSetTitle : Event → Bool
  | .setTitle _ _ => true
  | _ => false

/-- Whether an action is a `time.Sleep` call. -/
def Event.isSleep : Event → Bool
  | .sleep _ => true
  | _ => false

/-- The `SetTitle` calls made between the state `w` and the later state `w1`. -/
def titlesWritten (w w1 : World) : List Event :=
  (w1.trace.drop w.trace.length).filter Event.isSetTitle

/-- A sample in which all five queries succeed: `cpu0` and `c` are the first
elements of the two slices. -/
def okSample (cpu0 : ℚ) (cpus : List ℚ) (mem disk : ℚ) (up : ℕ)
    (c : IOCountersStat) (cs : List IOCountersStat) : Sample :=
  { cpu := .ok (cpu0 :: cpus), mem := .ok mem, disk := .ok disk, uptime := .ok up,
    net := .ok (c :: cs) }

/-- A sample whose successful slices are not empty, as the aggregate queries
`cpu.Percent(_, false)` and `net.IOCounters(false)` return them. -/
def Sample.NonEmpty (q : Sample) : Prop :=
  q.cpu ≠ .ok [] ∧ q.net ≠ .ok []

/-- A sample in which only the network query fails, with the error `e`. -/
def netErrSample (cpu0 : ℚ) (cpus : List ℚ) (mem disk : ℚ) (up : ℕ) (e : String) : Sample :=
  { cpu := .ok (cpu0 :: cpus), mem := .ok mem, disk := .ok disk, uptime := .ok up,
    net := .error e }

/-! ## rounding lemmas -/

theorem roundHalfEven_intCast (k : ℤ) : roundHalfEven (k : ℚ) = k := by
  simp [roundHalfEven]

theorem le_roundHalfEven {k : ℤ} {y : ℚ} (h : (k : ℚ) ≤ y) : k ≤ roundHalfEven y := by
  have hf : k ≤ ⌊y⌋ := Int.le_floor.mpr h
  unfold roundHalfEven
  simp only
  split_ifs <;> omega

theorem roundHalfEven_le {k : ℤ} {y : ℚ} (h : y ≤ (k : ℚ)) : roundHalfEven y ≤ k := by
  rcases eq_or_lt_of_le h with h | h
  · rw [h, roundHalfEven_intCast]
  · have hf : ⌊y⌋ < k := Int.floor_lt.mpr h
    unfold roundHalfEven
    simp only
    split_ifs <;> omega

theorem abs_sub_roundHalfEven_le (y : ℚ) : |y - roundHalfEven y| ≤ 1 / 2 := by
  have h1 := Int.floor_le y
  have h2 := Int.lt_floor_add_one y
  unfold roundHalfEven
  simp only
  split_ifs with ha hb hc
  · rw [abs_le]; constructor <;> linarith
  · rw [abs_le]; push_cast; constructor <;> linarith
  · rw [abs_le]; constructor <;> linarith
  · rw [abs_le]; push_cast; constructor <;> linarith

theorem roundHalfEven_eq_of_abs_lt {k : ℤ} {y : ℚ} (h : |y - k| < 1 / 2) : roundHalfEven y = k := by
  have h0 := abs_sub_roundHalfEven_le y
  rw [abs_lt] at h
  rw [abs_le] at h0
  have h3 : ((roundHalfEven y : ℤ) : ℚ) < (k : ℚ) + 1 := by linarith
  have h4 : (k : ℚ) - 1 < ((roundHalfEven y : ℤ) : ℚ) := by linarith
  have h3' : roundHalfEven y < k + 1 := by exact_mod_cast h3
  have h4' : k - 1 < roundHalfEven y := by exact_mod_cast h4
  omega

theorem roundHalfEven_half (k : ℤ) :
    roundHalfEven ((k : ℚ) + 1 / 2) = if k % 2 = 0 then k else k + 1 := by
  have hf : ⌊(k : ℚ) + 1 / 2⌋ = k := by
    rw [Int.floor_eq_iff]; constructor <;> linarith
  unfold roundHalfEven
  simp only [hf]
  norm_num

theorem log2_eq {x : ℚ} {e : ℤ} (hx : 0 < x) (h1 : (2 : ℚ) ^ e ≤ x) (h2 : x < (2 : ℚ) ^ (e + 1)) :
    Int.log 2 x = e := by
  have hb : 1 < 2 := by norm_num
  have a1 : e ≤ Int.log 2 x := by
    rw [← Int.zpow_le_iff_le_log hb hx]; exact_mod_cast h1
  have a2 : Int.log 2 x < e + 1 := by
    rw [← Int.lt_zpow_iff_log_lt hb hx]; exact_mod_cast h2
  omega

theorem f64_pos_spec {x : ℚ} (hx : 0 < x) :
    ∃ e : ℤ, (2 : ℚ) ^ e ≤ x ∧ x < (2 : ℚ) ^ (e + 1) ∧
      f64 x = (roundHalfEven (x / (2 : ℚ) ^ (e - 52)) : ℚ) * (2 : ℚ) ^ (e - 52) := by
  have hb : 1 < 2 := by norm_num
  refine ⟨Int.log 2 x, ?_, ?_, ?_⟩
  · exact_mod_cast Int.zpow_log_le_self hb hx
  · exact_mod_cast Int.lt_zpow_succ_log_self hb x
  · unfold f64
    rw [if_neg hx.ne', abs_of_pos hx]

theorem grid_div {m j e : ℤ} (he : e - 52 ≤ j) :
    ((m * 2 ^ (j - (e - 52)).toNat : ℤ) : ℚ) = (m : ℚ) * (2 : ℚ) ^ j / (2 : ℚ) ^ (e - 52) := by
  have h2 : (2 : ℚ) ≠ 0 := by norm_num
  have ht : ((j - (e - 52)).toNat : ℤ) = j - (e - 52) := Int.toNat_of_nonneg (by omega)
  push_cast
  rw [← zpow_natCast, ht, mul_div_assoc, ← zpow_sub₀ h2]

theorem exp_lt_of_lt {x : ℚ} {e j : ℤ} (h1 : (2 : ℚ) ^ e ≤ x) (h2 : x < (2 : ℚ) ^ (j + 53)) :
    e - 52 ≤ j := by
  have h := lt_of_le_of_lt h1 h2
  have := (zpow_lt_zpow_iff_right₀ (by norm_num : (1 : ℚ) < 2)).mp h
  omega

theorem f64_le_of_grid {x : ℚ} {m j : ℤ} (hx : 0 < x) (hlt : x < (2 : ℚ) ^ (j + 53))
    (h : x ≤ (m : ℚ) * (2 : ℚ) ^ j) : f64 x ≤ (m : ℚ) * (2 : ℚ) ^ j := by
  obtain ⟨e, h1, -, hf⟩ := f64_pos_spec hx
  have he := exp_lt_of_lt h1 hlt
  have hu : (0 : ℚ) < (2 : ℚ) ^ (e - 52) := by positivity
  have hg := grid_div (m := m) he
  have hr : roundHalfEven (x / (2 : ℚ) ^ (e - 52)) ≤ m * 2 ^ (j - (e - 52)).toNat := by
    apply roundHalfEven_le
    rw [hg]
    exact div_le_div_of_nonneg_right h hu.le
  have hr' : ((roundHalfEven (x / (2 : ℚ) ^ (e - 52)) : ℤ) : ℚ) ≤
      (m : ℚ) * (2 : ℚ) ^ j / (2 : ℚ) ^ (e - 52) := by
    rw [← hg]; exact_mod_cast hr
  rw [hf]
  calc _ ≤ (m : ℚ) * (2 : ℚ) ^ j / (2 : ℚ) ^ (e - 52) * (2 : ℚ) ^ (e - 52) :=
        mul_le_mul_of_nonneg_right hr' hu.le
    _ = _ := by field_simp

theorem le_f64_of_grid {x : ℚ} {m j : ℤ} (hx : 0 < x) (hlt : x < (2 : ℚ) ^ (j + 53))
    (h : (m : ℚ) * (2 : ℚ) ^ j ≤ x) : (m : ℚ) * (2 : ℚ) ^ j ≤ f64 x := by
  obtain ⟨e, h1, -, hf⟩ := f64_pos_spec hx
  have he := exp_lt_of_lt h1 hlt
  have hu : (0 : ℚ) < (2 : ℚ) ^ (e - 52) := by positivity
  have hg := grid_div (m := m) he
  have hr : m * 2 ^ (j - (e - 52)).toNat ≤ roundHalfEven (x / (2 : ℚ) ^ (e - 52)) := by
    apply le_roundHalfEven
    rw [hg]
    exact div_le_div_of_nonneg_right h hu.le
  have hr' : (m : ℚ) * (2 : ℚ) ^ j / (2 : ℚ) ^ (e - 52) ≤
      ((roundHalfEven (x / (2 : ℚ) ^ (e - 52)) : ℤ) : ℚ) := by
    rw [← hg]; exact_mod_cast hr
  rw [hf]
  calc (m : ℚ) * (2 : ℚ) ^ j
      = (m : ℚ) * (2 : ℚ) ^ j / (2 : ℚ) ^ (e - 52) * (2 : ℚ) ^ (e - 52) := by field_simp
    _ ≤ _ := mul_le_mul_of_nonneg_right hr' hu.le

theorem f64_zero : f64 0 = 0 := by simp [f64]

theorem f64_nonneg {x : ℚ} (hx : 0 ≤ x) : 0 ≤ f64 x := by
  rcases eq_or_lt_of_le hx with h | h
  · rw [← h, f64_zero]
  · have := le_f64_of_grid (m := 0) (j := Int.log 2 x + 1 - 53) h
      (by have := Int.lt_zpow_succ_log_self (by norm_num : 1 < 2) x
          simpa using this) (by simpa using h.le)
    simpa using this

/-- A positive `m * 2^j` with `m ≤ 2^53` is a float64. -/
theorem f64_eq_self {x : ℚ} {m j : ℤ} (hx : 0 < x) (hm : m ≤ 2 ^ 53)
    (h : x = (m : ℚ) * (2 : ℚ) ^ j) : f64 x = x := by
  have h2 : (2 : ℚ) ≠ 0 := by norm_num
  have hj : (0 : ℚ) < (2 : ℚ) ^ j := by positivity
  rcases eq_or_lt_of_le hm with hm | hm
  · have hx' : x = ((2 ^ 52 : ℤ) : ℚ) * (2 : ℚ) ^ (j + 1) := by
      rw [h, hm, zpow_add₀ h2]; push_cast; ring
    have hlt : x < (2 : ℚ) ^ (j + 1 + 53) := by
      rw [hx', zpow_add₀ h2 (j + 1) 53]
      have : (0 : ℚ) < (2 : ℚ) ^ (j + 1) := by positivity
      push_cast
      rw [mul_comm]
      apply mul_lt_mul_of_pos_left _ this
      norm_num
    apply le_antisymm
    · conv_rhs => rw [hx']
      exact f64_le_of_grid hx hlt hx'.le
    · conv_lhs => rw [hx']
      exact le_f64_of_grid hx hlt hx'.ge
  · have hlt : x < (2 : ℚ) ^ (j + 53) := by
      rw [h, zpow_add₀ h2 j 53, mul_comm]
      apply mul_lt_mul_of_pos_left _ hj
      have : (m : ℚ) < ((2 ^ 53 : ℤ) : ℚ) := by exact_mod_cast hm
      norm_num at this ⊢
      exact this
    apply le_antisymm
    · conv_rhs => rw [h]
      exact f64_le_of_grid hx hlt h.le
    · conv_lhs => rw [h]
      exact le_f64_of_grid hx hlt h.ge

/-- The result of rounding is `m * 2^j` with `0 < m ≤ 2^53`. -/
theorem f64_rep {x : ℚ} (hx : 0 < x) :
    ∃ m j : ℤ, 0 < m ∧ m ≤ 2 ^ 53 ∧ f64 x = (m : ℚ) * (2 : ℚ) ^ j := by
  obtain ⟨e, h1, h2, hf⟩ := f64_pos_spec hx
  have h20 : (2 : ℚ) ≠ 0 := by norm_num
  have hu : (0 : ℚ) < (2 : ℚ) ^ (e - 52) := by positivity
  refine ⟨roundHalfEven (x / (2 : ℚ) ^ (e - 52)), e - 52, ?_, ?_, hf⟩
  · have : (2 ^ 52 : ℤ) ≤ roundHalfEven (x / (2 : ℚ) ^ (e - 52)) := by
      apply le_roundHalfEven
      rw [le_div_iff₀ hu]
      have : (2 : ℚ) ^ e = (2 : ℚ) ^ (52 : ℤ) * (2 : ℚ) ^ (e - 52) := by
        rw [← zpow_add₀ h20]; congr 1; ring
      push_cast
      calc _ = (2 : ℚ) ^ e := by rw [this]; norm_num
        _ ≤ x := h1
    have h52 : (0 : ℤ) < 2 ^ 52 := by norm_num
    omega
  · apply roundHalfEven_le
    rw [div_le_iff₀ hu]
    have : (2 : ℚ) ^ (e + 1) = (2 : ℚ) ^ (53 : ℤ) * (2 : ℚ) ^ (e - 52) := by
      rw [← zpow_add₀ h20]; congr 1; ring
    push_cast
    calc x ≤ (2 : ℚ) ^ (e + 1) := h2.le
      _ = _ := by rw [this]; norm_num

theorem f64_natCast {n : ℕ} (h : n ≤ 2 ^ 53) : f64 (n : ℚ) = n := by
  rcases Nat.eq_zero_or_pos n with h0 | h0
  · subst h0; simp [f64_zero]
  · apply f64_eq_self (m := (n : ℤ)) (j := 0)
    · exact_mod_cast h0
    · exact_mod_cast h
    · simp

/-- Dividing a float64 by a power of two is exact. -/
theorem f64_div_two_pow {x : ℚ} (hx : 0 ≤ x) (k : ℕ) :
    f64 (f64 x / (2 : ℚ) ^ k) = f64 x / (2 : ℚ) ^ k := by
  rcases eq_or_lt_of_le hx with h | h
  · rw [← h]; simp [f64_zero]
  · obtain ⟨m, j, hm0, hm, hf⟩ := f64_rep h
    have h2 : (2 : ℚ) ≠ 0 := by norm_num
    have hpos : 0 < f64 x := by
      rw [hf]
      have : (0 : ℚ) < m := by exact_mod_cast hm0
      positivity
    apply f64_eq_self (m := m) (j := j - k) (by positivity) hm
    rw [hf, zpow_sub₀ h2, zpow_natCast]
    ring

theorem netSpeed_eq (prev cur : ℕ) :
    netSpeed prev cur = f64 (subUint64 cur prev : ℚ) / 2097152 := by
  have h0 : (0 : ℚ) ≤ (subUint64 cur prev : ℚ) := by positivity
  have a := f64_div_two_pow h0 10
  have b := f64_div_two_pow h0 20
  have c := f64_div_two_pow h0 21
  norm_num at a b c
  unfold netSpeed f64Div f64OfUint64
  rw [a]
  rw [show f64 (subUint64 cur prev : ℚ) / 1024 / 1024 = f64 (subUint64 cur prev : ℚ) / 1048576 by ring, b]
  rw [show f64 (subUint64 cur prev : ℚ) / 1048576 / 2 = f64 (subUint64 cur prev : ℚ) / 2097152 by ring, c]

/-- Rounding moves a positive value below `2^(E+1)` by at most `2^(E-53)`. -/
theorem abs_f64_sub_le {x : ℚ} {E : ℤ} (hx : 0 < x) (hlt : x < (2 : ℚ) ^ (E + 1)) :
    |f64 x - x| ≤ (2 : ℚ) ^ (E - 53) := by
  obtain ⟨e, h1, -, hf⟩ := f64_pos_spec hx
  have h2 : (2 : ℚ) ≠ 0 := by norm_num
  have he : e ≤ E := by
    have h := lt_of_le_of_lt h1 hlt
    have := (zpow_lt_zpow_iff_right₀ (by norm_num : (1 : ℚ) < 2)).mp h
    omega
  have hu : (0 : ℚ) < (2 : ℚ) ^ (e - 52) := by positivity
  have hr := abs_sub_roundHalfEven_le (x / (2 : ℚ) ^ (e - 52))
  have key : |f64 x - x| = |x / (2 : ℚ) ^ (e - 52) - roundHalfEven (x / (2 : ℚ) ^ (e - 52))| *
      (2 : ℚ) ^ (e - 52) := by
    rw [hf, ← abs_of_pos hu, ← abs_mul, abs_of_pos hu, abs_sub_comm]
    congr 1
    field_simp
    ring
  rw [key]
  calc _ ≤ 1 / 2 * (2 : ℚ) ^ (e - 52) := mul_le_mul_of_nonneg_right hr hu.le
    _ = (2 : ℚ) ^ (e - 53) := by
        rw [show e - 52 = (e - 53) + 1 by ring, zpow_add₀ h2]; field_simp
    _ ≤ (2 : ℚ) ^ (E - 53) := zpow_le_zpow_right₀ (by norm_num) (by omega)

/-- Adding a float64 fraction below one to a small natural number and
discarding the fraction again gives the number back. -/
theorem truncToInt_f64_add {n : ℤ} {fr : ℚ} (t : ℕ) (hn0 : 0 ≤ n) (hn : n + 1 ≤ 2 ^ (53 - t))
    (ht : t ≤ 53) (h0 : 0 ≤ fr) (h1 : fr ≤ 1 - 1 / (2 : ℚ) ^ t) :
    truncToInt (f64Add (n : ℚ) fr) = n := by
  have h2 : (2 : ℚ) ≠ 0 := by norm_num
  have hn0' : (0 : ℚ) ≤ n := by exact_mod_cast hn0
  have hs0 : 0 ≤ (n : ℚ) + fr := by positivity
  have hpt : (0 : ℚ) < (2 : ℚ) ^ t := by positivity
  have hnn := f64_nonneg hs0
  unfold f64Add truncToInt
  rw [if_pos hnn]
  rcases eq_or_lt_of_le hs0 with h | h
  · rw [← h, f64_zero]
    have : (n : ℚ) = 0 := by linarith
    have : n = 0 := by exact_mod_cast this
    simp [this]
  · have hz : (2 : ℚ) ^ (-(t : ℤ)) = 1 / (2 : ℚ) ^ t := by
      rw [zpow_neg, zpow_natCast, one_div]
    have hlt : (n : ℚ) + fr < (2 : ℚ) ^ (-(t : ℤ) + 53) := by
      have e1 : (-(t : ℤ) + 53) = ((53 - t : ℕ) : ℤ) := by omega
      rw [e1, zpow_natCast]
      have : ((n + 1 : ℤ) : ℚ) ≤ ((2 ^ (53 - t) : ℤ) : ℚ) := by exact_mod_cast hn
      push_cast at this
      have : 0 < 1 / (2 : ℚ) ^ t := by positivity
      linarith
    have elo : (n : ℚ) * 2 ^ t * (1 / 2 ^ t) = n := by field_simp
    have ehi : ((n : ℚ) * 2 ^ t + 2 ^ t - 1) * (1 / 2 ^ t) = (n : ℚ) + 1 - 1 / 2 ^ t := by
      field_simp
      ring
    have lo := le_f64_of_grid (m := n * 2 ^ t) (j := -(t : ℤ)) h hlt (by
      rw [hz]; push_cast; rw [elo]; linarith)
    have hi := f64_le_of_grid (m := n * 2 ^ t + 2 ^ t - 1) (j := -(t : ℤ)) h hlt (by
      rw [hz]; push_cast; rw [ehi]; linarith)
    rw [hz] at lo hi
    push_cast at lo hi
    rw [elo] at lo
    rw [ehi] at hi
    rw [Int.floor_eq_iff]
    constructor
    · exact lo
    · have : 0 < 1 / (2 : ℚ) ^ t := by positivity
      linarith

theorem wrapInt64_eq {i : ℤ} (h1 : -2 ^ 63 ≤ i) (h2 : i < 2 ^ 63) : wrapInt64 i = i := by
  unfold wrapInt64
  omega

theorem uptimeDuration_eq {s : ℕ} (h : s * 10 ^ 9 < 2 ^ 63) :
    uptimeDuration s = (s : ℤ) * 1000000000 := by
  unfold uptimeDuration Second
  have hs : (s : ℤ) * 1000000000 < 2 ^ 63 := by exact_mod_cast h
  rw [wrapInt64_eq (i := (s : ℤ)) (by omega) (by omega), wrapInt64_eq (by omega) hs]

/-- A fraction below one rounds to a float64 fraction below one. -/
theorem f64_frac_le {x : ℚ} (t : ℕ) (ht : t ≤ 53) (h0 : 0 ≤ x) (h1 : x ≤ 1 - 1 / (2 : ℚ) ^ t) :
    f64 x ≤ 1 - 1 / (2 : ℚ) ^ t := by
  rcases eq_or_lt_of_le h0 with h | h
  · rw [← h, f64_zero]; linarith
  · have hz : (2 : ℚ) ^ (-(t : ℤ)) = 1 / (2 : ℚ) ^ t := by
      rw [zpow_neg, zpow_natCast, one_div]
    have hpt : (0 : ℚ) < 1 / (2 : ℚ) ^ t := by positivity
    have e1 : (((2 ^ t - 1 : ℤ)) : ℚ) * (2 : ℚ) ^ (-(t : ℤ)) = 1 - 1 / (2 : ℚ) ^ t := by
      rw [hz]; push_cast; field_simp
    have hlt : x < (2 : ℚ) ^ (-(t : ℤ) + 53) := by
      have e2 : (-(t : ℤ) + 53) = ((53 - t : ℕ) : ℤ) := by omega
      rw [e2, zpow_natCast]
      have : (1 : ℚ) ≤ (2 : ℚ) ^ (53 - t) := one_le_pow₀ (by norm_num)
      linarith
    have := f64_le_of_grid (m := 2 ^ t - 1) (j := -(t : ℤ)) h hlt (by rw [e1]; exact h1)
    rwa [e1] at this

theorem f64OfInt_natCast {n : ℕ} (h : n ≤ 2 ^ 53) : f64OfInt (n : ℤ) = n := by
  unfold f64OfInt
  rw [Int.cast_natCast]
  exact f64_natCast h

theorem truncToInt_Hours {s : ℕ} (h : s * 10 ^ 9 < 2 ^ 63) :
    truncToInt (Hours (uptimeDuration s)) = ((s / 3600 : ℕ) : ℤ) := by
  rw [uptimeDuration_eq h]
  unfold Hours Hour Minute Second
  have hq : ((s : ℤ) * 1000000000).tdiv (60 * (60 * 1000000000)) = ((s / 3600 : ℕ) : ℤ) := by
    rw [Int.tdiv_eq_ediv (by positivity) (by norm_num)]
    push_cast
    omega
  have hr : ((s : ℤ) * 1000000000).tmod (60 * (60 * 1000000000)) =
      ((s % 3600 * 1000000000 : ℕ) : ℤ) := by
    rw [Int.tmod_eq_emod (by positivity) (by norm_num)]
    push_cast
    omega
  rw [hq, hr, f64OfInt_natCast (by omega), f64OfInt_natCast (by omega)]
  have hfr : ((s % 3600 * 1000000000 : ℕ) : ℚ) / (60 * 60 * 1000000000) ≤ 1 - 1 / (2 : ℚ) ^ 31 := by
    have : ((s % 3600 : ℕ) : ℚ) ≤ 3599 := by
      have : s % 3600 ≤ 3599 := by omega
      exact_mod_cast this
    push_cast
    norm_num
    linarith
  have := truncToInt_f64_add (n := ((s / 3600 : ℕ) : ℤ)) 31 (by positivity) (by omega) (by norm_num)
    (f64_nonneg (by positivity)) (f64_frac_le 31 (by norm_num) (by positivity) hfr)
  rw [Int.cast_natCast] at this
  exact this

theorem truncToInt_Minutes {s : ℕ} (h : s * 10 ^ 9 < 2 ^ 63) :
    truncToInt (Minutes (uptimeDuration s)) = ((s / 60 : ℕ) : ℤ) := by
  rw [uptimeDuration_eq h]
  unfold Minutes Minute Second
  have hq : ((s : ℤ) * 1000000000).tdiv (60 * 1000000000) = ((s / 60 : ℕ) : ℤ) := by
    rw [Int.tdiv_eq_ediv (by positivity) (by norm_num)]
    push_cast
    omega
  have hr : ((s : ℤ) * 1000000000).tmod (60 * 1000000000) =
      ((s % 60 * 1000000000 : ℕ) : ℤ) := by
    rw [Int.tmod_eq_emod (by positivity) (by norm_num)]
    push_cast
    omega
  rw [hq, hr, f64OfInt_natCast (by omega), f64OfInt_natCast (by omega)]
  have hfr : ((s % 60 * 1000000000 : ℕ) : ℚ) / (60 * 1000000000) ≤ 1 - 1 / (2 : ℚ) ^ 25 := by
    have : ((s % 60 : ℕ) : ℚ) ≤ 59 := by
      have : s % 60 ≤ 59 := by omega
      exact_mod_cast this
    push_cast
    norm_num
    linarith
  have := truncToInt_f64_add (n := ((s / 60 : ℕ) : ℤ)) 25 (by positivity) (by omega) (by norm_num)
    (f64_nonneg (by positivity)) (f64_frac_le 25 (by norm_num) (by positivity) hfr)
  rw [Int.cast_natCast] at this
  exact this

theorem roundHalfEven_zero : roundHalfEven 0 = 0 := by
  have := roundHalfEven_intCast 0
  simpa using this

theorem fmtFloat_two_zero : fmtFloat 2 0 = "0.00" := by
  unfold fmtFloat
  simp only [abs_zero, zero_mul, roundHalfEven_zero]
  decide

theorem fmtFloat_one_zero : fmtFloat 1 0 = "0.0" := by
  unfold fmtFloat
  simp only [abs_zero, zero_mul, roundHalfEven_zero]
  decide

theorem fmtFloat_one {p : ℚ} (h : 0 ≤ p) :
    fmtFloat 1 p ++ "%" = renderTenths (roundHalfEven (10 * p)).toNat := by
  unfold fmtFloat renderTenths
  rw [if_neg (not_lt.mpr h), abs_of_nonneg h]
  simp only [pow_one, mul_comm p 10, fracDigits, pow_zero, Nat.div_one]
  simp [String.append_assoc]
  rfl

theorem uptimeString_eq {s : ℕ} (h : s * 10 ^ 9 < 2 ^ 63) :
    uptimeString s = toString (s / 3600 / 24) ++ " d, " ++ toString (s / 3600 % 24) ++ " h, " ++
      toString (s / 60 % 60) ++ " m" := by
  unfold uptimeString
  simp only [truncToInt_Hours h, truncToInt_Minutes h]
  rfl

/-! ## lemmas on the cycle -/

theorem updateSystemMetrics_okSample (w : World) (cpu0 : ℚ) (cpus : List ℚ) (mem disk : ℚ)
    (up : ℕ) (c : IOCountersStat) (cs : List IOCountersStat) :
    updateSystemMetrics (okSample cpu0 cpus mem disk up c cs) w =
      some (setTitles { w with prevNetSent := c.BytesSent, prevNetRecv := c.BytesRecv }
        cpu0 mem disk (networkUsage w.prevNetSent w.prevNetRecv c.BytesSent c.BytesRecv)
        (uptimeString up)) := rfl

theorem setTitles_menu (w : World) (a b c : ℚ) (n u : String) :
    (setTitles w a b c n u).menu =
      { mCPU := "CPU: " ++ fmtFloat 1 a ++ "%", mRAM := "RAM: " ++ fmtFloat 1 b ++ "%",
        mDisk := "Disk: " ++ fmtFloat 1 c ++ "%", mNetwork := "Network: " ++ n,
        mUptime := "Uptime: " ++ u } := rfl

theorem setTitles_trace (w : World) (a b c : ℚ) (n u : String) :
    (setTitles w a b c n u).trace = w.trace ++
      [Event.setTitle .mCPU ("CPU: " ++ fmtFloat 1 a ++ "%"),
       Event.setTitle .mRAM ("RAM: " ++ fmtFloat 1 b ++ "%"),
       Event.setTitle .mDisk ("Disk: " ++ fmtFloat 1 c ++ "%"),
       Event.setTitle .mNetwork ("Network: " ++ n),
       Event.setTitle .mUptime ("Uptime: " ++ u)] := by
  simp [setTitles, World.setTitle]

theorem titlesWritten_log (w : World) (msg : String) :
    titlesWritten w (w.logPrintln msg) = [] := by
  simp [titlesWritten, World.logPrintln, Event.isSetTitle]

theorem updateSystemMetrics_trace {q : Sample} {w w1 : World}
    (h : updateSystemMetrics q w = some w1) :
    ∃ b : List Event, b ≠ [] ∧ (∀ e ∈ b, e.isSleep = false) ∧ w1.trace = w.trace ++ b := by
  rcases q with ⟨c, m, d, u, n⟩
  have hlog : ∀ msg, w1 = w.logPrintln msg →
      ∃ b : List Event, b ≠ [] ∧ (∀ e ∈ b, e.isSleep = false) ∧ w1.trace = w.trace ++ b := by
    intro msg hw
    refine ⟨[Event.log msg], by simp, ?_, by rw [hw]; rfl⟩
    intro e he
    simp at he
    rw [he]; rfl
  cases c with
  | error e => exact hlog _ (Option.some.inj h).symm
  | ok c =>
    cases m with
    | error e => exact hlog _ (Option.some.inj h).symm
    | ok m =>
      cases d with
      | error e => exact hlog _ (Option.some.inj h).symm
      | ok d =>
        cases u with
        | error e => exact hlog _ (Option.some.inj h).symm
        | ok u =>
          cases n with
          | error e =>
            cases c with
            | nil => simp [updateSystemMetrics] at h
            | cons cpu0 cpus =>
              have hw := (Option.some.inj h).symm
              have htr : w1.trace = w.trace ++
                  (Event.log ("Error getting network info: " ++ e) ::
                    [Event.setTitle .mCPU ("CPU: " ++ fmtFloat 1 cpu0 ++ "%"),
                     Event.setTitle .mRAM ("RAM: " ++ fmtFloat 1 m ++ "%"),
                     Event.setTitle .mDisk ("Disk: " ++ fmtFloat 1 d ++ "%"),
                     Event.setTitle .mNetwork ("Network: " ++ "N/A"),
                     Event.setTitle .mUptime ("Uptime: " ++ uptimeString u)]) := by
                rw [hw, setTitles_trace]
                simp only [World.logPrintln, List.append_assoc]
                rfl
              refine ⟨_, ?_, ?_, htr⟩
              · simp
              · intro e he
                simp at he
                rcases he with he | he | he | he | he | he <;> (rw [he]; rfl)
          | ok n =>
            cases n with
            | nil => simp [updateSystemMetrics] at h
            | cons c0 cs =>
              cases c with
              | nil => simp [updateSystemMetrics] at h
              | cons cpu0 cpus =>
                have hw := (Option.some.inj h).symm
                refine ⟨_, ?_, ?_, by rw [hw, setTitles_trace]⟩
                · simp
                · intro e he
                  simp at he
                  rcases he with he | he | he | he | he <;> (rw [he]; rfl)

theorem updateSystemMetrics_isSome {q : Sample} (hq : q.NonEmpty) (w : World) :
    ∃ w1, updateSystemMetrics q w = some w1 := by
  rcases q with ⟨c, m, d, u, n⟩
  obtain ⟨hc, hn⟩ := hq
  cases c with
  | error e => exact ⟨_, rfl⟩
  | ok c =>
    cases m with
    | error e => exact ⟨_, rfl⟩
    | ok m =>
      cases d with
      | error e => exact ⟨_, rfl⟩
      | ok d =>
        cases u with
        | error e => exact ⟨_, rfl⟩
        | ok u =>
          cases c with
          | nil => exact absurd rfl hc
          | cons cpu0 cpus =>
            cases n with
            | error e => exact ⟨_, rfl⟩
            | ok n =>
              cases n with
              | nil => exact absurd rfl hn
              | cons c0 cs => exact ⟨_, rfl⟩

/-! ## lemmas on the rate and its rendering -/

theorem f64_eval {x : ℚ} (e k : ℤ) (hx : 0 < x) (h1 : (2 : ℚ) ^ e ≤ x)
    (h2 : x < (2 : ℚ) ^ (e + 1)) (hk : roundHalfEven (x / (2 : ℚ) ^ (e - 52)) = k) :
    f64 x = (k : ℚ) * (2 : ℚ) ^ (e - 52) := by
  unfold f64
  rw [if_neg hx.ne', abs_of_pos hx, log2_eq hx h1 h2]
  simp only [hk]

theorem f64_pos {x : ℚ} (hx : 0 < x) : 0 < f64 x := by
  obtain ⟨m, j, hm0, -, hf⟩ := f64_rep hx
  rw [hf]
  have : (0 : ℚ) < m := by exact_mod_cast hm0
  positivity

theorem subUint64_of_le {prev cur : ℕ} (h : prev ≤ cur) (hc : cur < 2 ^ 64) :
    subUint64 cur prev = cur - prev := by
  unfold subUint64
  omega

theorem subUint64_of_lt {prev cur : ℕ} (h : cur < prev) (hp : prev < 2 ^ 64) :
    subUint64 cur prev = 2 ^ 64 + cur - prev := by
  unfold subUint64
  omega

theorem subUint64_emod {prev cur : ℕ} (hp : prev < 2 ^ 64) (hc : cur < 2 ^ 64) :
    (subUint64 cur prev : ℤ) = ((cur : ℤ) - prev) % 2 ^ 64 := by
  unfold subUint64
  omega

theorem netSpeed_nonneg (prev cur : ℕ) : 0 ≤ netSpeed prev cur := by
  rw [netSpeed_eq]
  have := f64_nonneg (x := (subUint64 cur prev : ℚ)) (by positivity)
  positivity

theorem netSpeed_of_small {prev cur : ℕ} (h : prev ≤ cur) (hc : cur < 2 ^ 64)
    (hd : cur - prev ≤ 2 ^ 53) :
    netSpeed prev cur = ((cur - prev : ℕ) : ℚ) / (1024 * 1024) / 2 := by
  rw [netSpeed_eq, subUint64_of_le h hc, f64_natCast hd]
  ring

theorem netSpeed_of_lt {prev cur : ℕ} (h : cur < prev) (hp : prev < 2 ^ 64) :
    0 < netSpeed prev cur ∧
      |netSpeed prev cur - ((2 ^ 64 + cur - prev : ℕ) : ℚ) / 2097152| ≤ 1 / 2048 := by
  rw [netSpeed_eq, subUint64_of_lt h hp]
  have hpos : (0 : ℚ) < ((2 ^ 64 + cur - prev : ℕ) : ℚ) := by
    have : 0 < 2 ^ 64 + cur - prev := by omega
    exact_mod_cast this
  have hlt : ((2 ^ 64 + cur - prev : ℕ) : ℚ) < (2 : ℚ) ^ ((63 : ℤ) + 1) := by
    have : 2 ^ 64 + cur - prev < 2 ^ 64 := by omega
    have h' : ((2 ^ 64 + cur - prev : ℕ) : ℚ) < ((2 ^ 64 : ℕ) : ℚ) := by exact_mod_cast this
    norm_num at h' ⊢
    exact h'
  constructor
  · have := f64_pos hpos
    positivity
  · have hb := abs_f64_sub_le hpos hlt
    rw [← sub_div, abs_div]
    norm_num at hb ⊢
    rw [div_le_iff₀ (by norm_num)]
    norm_num
    exact hb

theorem fmtFloat_two_one : fmtFloat 2 1 = "1.00" := by
  unfold fmtFloat
  have : roundHalfEven (|(1 : ℚ)| * 10 ^ 2) = 100 := by
    have := roundHalfEven_intCast 100
    norm_num at this ⊢
    exact this
  simp only [this]
  decide

theorem networkUsage_cold {ps pr : ℕ} (h : ps = 0 ∨ pr = 0) (cs cr : ℕ) :
    networkUsage ps pr cs cr = "Sent: 0.00 MB/s, Received: 0.00 MB/s" := by
  have hn : ¬ (ps ≠ 0 ∧ pr ≠ 0) := by
    rcases h with h | h <;> simp [h]
  unfold networkUsage netSentSpeed netRecvSpeed
  rw [if_neg hn, if_neg hn, fmtFloat_two_zero]
  decide

theorem fmtFloat_two_eval {x : ℚ} (k : ℤ) (hx : 0 ≤ x) (h : |x * 100 - k| < 1 / 2) :
    fmtFloat 2 x = toString (k.toNat / 100) ++ ("." ++ String.mk (fracDigits 2 k.toNat)) := by
  unfold fmtFloat
  have : roundHalfEven (|x| * 10 ^ 2) = k := by
    apply roundHalfEven_eq_of_abs_lt
    rw [abs_of_nonneg hx]
    norm_num
    exact h
  rw [if_neg (not_lt.mpr hx)]
  simp only [this]
  rfl

theorem f64_large_example : f64 9223372036854787048 = 9223372036854786048 := by
  have hk : roundHalfEven ((9223372036854787048 : ℚ) / (2 : ℚ) ^ ((63 : ℤ) - 52)) =
      4503599627370501 := by
    apply roundHalfEven_eq_of_abs_lt
    rw [abs_lt]
    constructor <;> norm_num
  rw [f64_eval 63 4503599627370501 (by norm_num) (by norm_num) (by norm_num) hk]
  norm_num

theorem f64_regress_example : f64 18446744073709038568 = 18446744073709037568 := by
  have hk : roundHalfEven ((18446744073709038568 : ℚ) / (2 : ℚ) ^ ((63 : ℤ) - 52)) =
      9007199254740741 := by
    apply roundHalfEven_eq_of_abs_lt
    rw [abs_lt]
    constructor <;> norm_num
  rw [f64_eval 63 9007199254740741 (by norm_num) (by norm_num) (by norm_num) hk]
  norm_num

theorem roundHalfEven_even_of_tie {y : ℚ} (h : |y - roundHalfEven y| = 1 / 2) :
    roundHalfEven y % 2 = 0 := by
  have h1 := Int.floor_le y
  have h2 := Int.lt_floor_add_one y
  unfold roundHalfEven at h ⊢
  simp only at h ⊢
  split_ifs at h ⊢ with ha hb hc
  · rw [abs_of_nonneg (by linarith)] at h; linarith
  · push_cast at h
    rw [abs_of_nonpos (by linarith)] at h; linarith
  · exact hc
  · omega

theorem uptimeString_zero : uptimeString 0 = "0 d, 0 h, 0 m" := by
  rw [uptimeString_eq (by norm_num)]
  decide

/-! ## lemmas on the icon lookup -/

theorem probe_of_first_readable (readFile : String → Except String (List ℕ))
    (pre : List String) (p : String) (post : List String) (icon : List ℕ) (logs : List String)
    (hpre : ∀ x ∈ pre, failed (readFile x) = true) (hp : readFile p = .ok icon) :
    (probe readFile (pre ++ p :: post) logs).1 = .ok icon := by
  induction pre generalizing logs with
  | nil => simp [probe, hp]
  | cons x xs ih =>
    have hx := hpre x (List.mem_cons_self x xs)
    cases hr : readFile x with
    | ok v => rw [hr] at hx; simp [failed] at hx
    | error e =>
      simp only [List.cons_append, probe, hr]
      exact ih _ (fun y hy => hpre y (List.mem_cons_of_mem x hy))

theorem probe_failed_iff (readFile : String → Except String (List ℕ))
    (paths : List String) (logs : List String) :
    failed (probe readFile paths logs).1 = true ↔ ∀ p ∈ paths, failed (readFile p) = true := by
  induction paths generalizing logs with
  | nil => simp [probe, failed]
  | cons x xs ih =>
    cases hr : readFile x with
    | ok v => simp [probe, hr, failed]
    | error e =>
      simp only [probe, hr, List.mem_cons, forall_eq_or_imp, failed, true_and]
      exact ih _

/-! ## lemmas on two cycles, regressions and the ticker -/

theorem subUint64_cast (prev cur : ℕ) :
    (subUint64 cur prev : ℤ) = ((cur : ℤ) - prev) % 2 ^ 64 := by
  unfold subUint64
  omega

theorem netSpeed_of_delta {prev cur d : ℕ} (h : (d : ℤ) = ((cur : ℤ) - prev) % 2 ^ 64) :
    netSpeed prev cur = f64OfUint64 d / 1024 / 1024 / 2 := by
  have : subUint64 cur prev = d := by
    have := subUint64_cast prev cur
    omega
  rw [netSpeed_eq, this]
  unfold f64OfUint64
  ring

theorem networkUsage_eq (ps pr cs cr : ℕ) :
    networkUsage ps pr cs cr = "Sent: " ++
      fmtFloat 2 (if ps ≠ 0 ∧ pr ≠ 0 then
        f64OfUint64 (subUint64 cs ps) / 1024 / 1024 / 2 else 0) ++
      " MB/s, Received: " ++
      fmtFloat 2 (if ps ≠ 0 ∧ pr ≠ 0 then
        f64OfUint64 (subUint64 cr pr) / 1024 / 1024 / 2 else 0) ++ " MB/s" := by
  unfold networkUsage netSentSpeed netRecvSpeed
  rw [netSpeed_of_delta (subUint64_cast ps cs), netSpeed_of_delta (subUint64_cast pr cr)]

theorem cycle_network (w : World) (cpu0 : ℚ) (cpus : List ℚ) (mem disk : ℚ) (up : ℕ)
    (c : IOCountersStat) (cs : List IOCountersStat) :
    ∃ w1, updateSystemMetrics (okSample cpu0 cpus mem disk up c cs) w = some w1 ∧
      w1.prevNetSent = c.BytesSent ∧ w1.prevNetRecv = c.BytesRecv ∧
      w1.menu.mNetwork =
        "Network: " ++ networkUsage w.prevNetSent w.prevNetRecv c.BytesSent c.BytesRecv :=
  ⟨_, updateSystemMetrics_okSample .., rfl, rfl, rfl⟩

theorem fmtFloat_regress_example :
    fmtFloat 2 (f64OfUint64 18446744073709038568 / 2 ^ 21) = "8796093022207.75" := by
  have h : f64OfUint64 18446744073709038568 / 2 ^ 21 = 9007199254740741 / 1024 := by
    unfold f64OfUint64
    push_cast
    rw [f64_regress_example]
    norm_num
  rw [h, fmtFloat_two_eval 879609302220775 (by norm_num)
    (by rw [abs_lt]; constructor <;> norm_num)]
  decide

theorem f64OfUint64_div_nonneg (d : ℕ) : 0 ≤ f64OfUint64 d / 2 ^ 21 := by
  have := f64_nonneg (x := (d : ℚ)) (by positivity)
  unfold f64OfUint64
  positivity

theorem rate_of_regression {prev cur d : ℕ} (hp : prev < 2 ^ 64)
    (hd : (d : ℤ) = ((cur : ℤ) - prev) % 2 ^ 64) (hlt : cur < prev) :
    d = 2 ^ 64 + cur - prev ∧ 0 < f64OfUint64 d / 2 ^ 21 ∧
      |f64OfUint64 d / 2 ^ 21 - ((2 ^ 64 + cur - prev : ℕ) : ℚ) / 2 ^ 21| ≤ 1 / 2 ^ 11 := by
  have e : d = 2 ^ 64 + cur - prev := by omega
  have hs : netSpeed prev cur = f64OfUint64 d / 2 ^ 21 := by
    rw [netSpeed_of_delta hd]; ring
  obtain ⟨a, b⟩ := netSpeed_of_lt hlt hp
  rw [hs] at a b
  refine ⟨e, a, ?_⟩
  norm_num at b ⊢
  exact b

theorem rate_of_small_regression {prev cur d : ℕ} (hp : prev < 2 ^ 64)
    (hd : (d : ℤ) = ((cur : ℤ) - prev) % 2 ^ 64) (hlt : cur < prev)
    (hsmall : prev - cur ≤ 2 ^ 63) : 2 ^ 42 ≤ f64OfUint64 d / 2 ^ 21 := by
  have e : d = 2 ^ 64 + cur - prev := by omega
  have hlo : 2 ^ 63 ≤ d := by omega
  have hhi : d < 2 ^ 64 := by omega
  have hlo1 : ((2 ^ 63 : ℕ) : ℚ) ≤ (d : ℚ) := by exact_mod_cast hlo
  have hhi1 : (d : ℚ) < ((2 ^ 64 : ℕ) : ℚ) := by exact_mod_cast hhi
  have hpos : (0 : ℚ) < (d : ℚ) := by
    have : 0 < d := by omega
    exact_mod_cast this
  have key := le_f64_of_grid (x := (d : ℚ)) (m := 2 ^ 52) (j := 11) hpos
    (by norm_num at hhi1 ⊢; exact hhi1) (by norm_num at hlo1 ⊢; exact hlo1)
  unfold f64OfUint64
  rw [le_div_iff₀ (by norm_num)]
  norm_num at key ⊢
  exact key

theorem tickerLoop_states (n : ℕ) (samples : ℕ → Sample) (w : World)
    (h : ∀ i, i < n → (samples i).NonEmpty) :
    ∃ ws : ℕ → World, ws 0 = w ∧ tickerLoop n samples w = some (ws n) ∧
      ∀ i, i < n → ∃ (w1 : World) (b : List Event),
        updateSystemMetrics (samples i) (ws i) = some w1 ∧
        ws (i + 1) = w1.timeSleep (2 * Second) ∧
        b ≠ [] ∧ (∀ e ∈ b, e.isSleep = false) ∧ w1.trace = (ws i).trace ++ b ∧
        (ws (i + 1)).trace = (ws i).trace ++ b ++ [Event.sleep (2 * Second)] := by
  induction n generalizing samples w with
  | zero => exact ⟨fun _ => w, rfl, rfl, fun i hi => absurd hi (Nat.not_lt_zero i)⟩
  | succ n ih =>
    obtain ⟨w0, hw0⟩ := updateSystemMetrics_isSome (h 0 (Nat.succ_pos n)) w
    obtain ⟨b, hb1, hb2, hb3⟩ := updateSystemMetrics_trace hw0
    obtain ⟨ws, h0, hn, hstep⟩ := ih (fun i => samples (i + 1))
      (w0.timeSleep (2 * Second)) (fun i hi => h (i + 1) (Nat.succ_lt_succ hi))
    refine ⟨fun i => match i with | 0 => w | k + 1 => ws k, rfl, ?_, ?_⟩
    · simp only [tickerLoop, hw0]
      exact hn
    · intro i hi
      cases i with
      | zero =>
        refine ⟨w0, b, hw0, h0, hb1, hb2, hb3, ?_⟩
        simp only [h0, World.timeSleep, hb3]
      | succ k => exact hstep k (Nat.lt_of_succ_lt_succ hi)

theorem tickerLoop_first_action (n : ℕ) (samples : ℕ → Sample) (w w1 : World)
    (h : tickerLoop n samples w = some w1) (hn : 0 < n) :
    ∃ e rest, w1.trace = w.trace ++ e :: rest ∧ e.isSleep = false := by
  have ext : ∀ (n : ℕ) (samples : ℕ → Sample) (w w1 : World),
      tickerLoop n samples w = some w1 → ∃ rest, w1.trace = w.trace ++ rest := by
    intro n
    induction n with
    | zero =>
      intro samples w w1 h
      exact ⟨[], by rw [← Option.some.inj h]; simp⟩
    | succ n ih =>
      intro samples w w1 h
      simp only [tickerLoop] at h
      cases hu : updateSystemMetrics (samples 0) w with
      | none => rw [hu] at h; exact absurd h (by simp)
      | some w0 =>
        rw [hu] at h
        obtain ⟨b, -, -, hb⟩ := updateSystemMetrics_trace hu
        obtain ⟨rest, hr⟩ := ih _ _ _ h
        exact ⟨b ++ [Event.sleep (2 * Second)] ++ rest, by
          rw [hr]; simp [World.timeSleep, hb]⟩
  cases n with
  | zero => exact absurd hn (Nat.lt_irrefl 0)
  | succ n =>
    simp only [tickerLoop] at h
    cases hu : updateSystemMetrics (samples 0) w with
    | none => rw [hu] at h; exact absurd h (by simp)
    | some w0 =>
      rw [hu] at h
      obtain ⟨b, hb1, hb2, hb3⟩ := updateSystemMetrics_trace hu
      obtain ⟨rest, hr⟩ := ext _ _ _ _ h
      cases b with
      | nil => exact absurd rfl hb1
      | cons e es =>
        exact ⟨e, es ++ [Event.sleep (2 * Second)] ++ rest, by
          rw [hr]; simp [World.timeSleep, hb3], hb2 e (List.mem_cons_self e es)⟩

/-! ## the claims -/

/-- Claim C1 (amended): when the CPU, memory, disk or uptime query of a cycle
fails, the cycle ends after one log entry, no `SetTitle` call is made and the
menu is unchanged.  A failing network query does not end the cycle: it is
logged as `Error getting network info: ` and then the CPU, RAM, Disk, Network
and Uptime titles are written in this order, the network one as
`Network: N/A`; the stored counters stay as they were. -/
theorem abort_on_first_four :
    (∀ (q : Sample) (w : World),
      (failed q.cpu = true ∨ failed q.mem = true ∨ failed q.disk = true ∨
        failed q.uptime = true) →
      ∃ w1 msg, updateSystemMetrics q w = some w1 ∧ w1 = w.logPrintln msg ∧
        w1.menu = w.menu ∧ titlesWritten w w1 = []) ∧
    (∀ (w : World) (cpu0 : ℚ) (cpus : List ℚ) (mem disk : ℚ) (up : ℕ) (e : String),
      ∃ w1, updateSystemMetrics (netErrSample cpu0 cpus mem disk up e) w = some w1 ∧
        w1.trace = w.trace ++
          [Event.log ("Error getting network info: " ++ e),
           Event.setTitle .mCPU ("CPU: " ++ fmtFloat 1 cpu0 ++ "%"),
           Event.setTitle .mRAM ("RAM: " ++ fmtFloat 1 mem ++ "%"),
           Event.setTitle .mDisk ("Disk: " ++ fmtFloat 1 disk ++ "%"),
           Event.setTitle .mNetwork "Network: N/A",
           Event.setTitle .mUptime ("Uptime: " ++ uptimeString up)] ∧
        w1.menu =
          { mCPU := "CPU: " ++ fmtFloat 1 cpu0 ++ "%", mRAM := "RAM: " ++ fmtFloat 1 mem ++ "%",
            mDisk := "Disk: " ++ fmtFloat 1 disk ++ "%", mNetwork := "Network: N/A",
            mUptime := "Uptime: " ++ uptimeString up } ∧
        w1.prevNetSent = w.prevNetSent ∧ w1.prevNetRecv = w.prevNetRecv ∧
        (titlesWritten w w1).length = 5) := by
  constructor
  · intro q w h
    rcases q with ⟨c, m, d, u, n⟩
    have key : ∃ msg, updateSystemMetrics ⟨c, m, d, u, n⟩ w = some (w.logPrintln msg) := by
      cases c with
      | error e => exact ⟨_, rfl⟩
      | ok c =>
        cases m with
        | error e => exact ⟨_, rfl⟩
        | ok m =>
          cases d with
          | error e => exact ⟨_, rfl⟩
          | ok d =>
            cases u with
            | error e => exact ⟨_, rfl⟩
            | ok u => simp [failed] at h
    obtain ⟨msg, hmsg⟩ := key
    exact ⟨_, msg, hmsg, rfl, rfl, titlesWritten_log w msg⟩
  · intro w cpu0 cpus mem disk up e
    refine ⟨_, rfl, ?_, rfl, rfl, rfl, ?_⟩
    · rw [setTitles_trace]
      simp only [World.logPrintln, List.append_assoc]
      rfl
    · simp [titlesWritten, setTitles_trace, World.logPrintln, Event.isSetTitle]

/-- Claim C1, witness: a cycle whose disk query fails, started from the state
at UI-ready, writes no title. -/
theorem abort_on_first_four_witness :
    failed (Sample.mk (.ok [12]) (.ok 40) (.error "no such device") (.ok 90125) (.ok [])).disk
      = true ∧
    ∃ w1 msg,
      updateSystemMetrics
        (Sample.mk (.ok [12]) (.ok 40) (.error "no such device") (.ok 90125) (.ok []))
        readyWorld = some w1 ∧
      w1 = readyWorld.logPrintln msg ∧ w1.menu = readyWorld.menu ∧
      titlesWritten readyWorld w1 = [] :=
  ⟨rfl, abort_on_first_four.1 _ readyWorld (Or.inr (Or.inr (Or.inl rfl)))⟩

/-- Claim C1, counterexample: in a cycle where only the network query fails,
five titles are written and the network title changes to `Network: N/A`. -/
theorem network_failure_is_not_abort :
    failed (netErrSample 12 [] 40 55 90125 "not supported").net = true ∧
    ∃ w1, updateSystemMetrics (netErrSample 12 [] 40 55 90125 "not supported") readyWorld
        = some w1 ∧
      (titlesWritten readyWorld w1).length = 5 ∧
      readyWorld.menu.mNetwork = "Network: -" ∧ w1.menu.mNetwork = "Network: N/A" := by
  refine ⟨rfl, _, rfl, ?_, rfl, rfl⟩
  simp [titlesWritten, setTitles_trace, World.logPrintln, Event.isSetTitle, readyWorld]

/-- Claim C2: when the CPU, memory, disk or uptime query is the first to fail,
the state after the cycle is the state before it with one log entry added,
the entry naming the failing metric; the menu titles and both previous
network counters are untouched. -/
theorem first_failure_only_logs :
    (∀ (w : World) (e : String) (m d : Except String ℚ) (u : Except String ℕ)
        (n : Except String (List IOCountersStat)),
      updateSystemMetrics { cpu := .error e, mem := m, disk := d, uptime := u, net := n } w =
        some { w with trace := w.trace ++ [Event.log ("Error getting CPU usage: " ++ e)] }) ∧
    (∀ (w : World) (e : String) (c : List ℚ) (d : Except String ℚ) (u : Except String ℕ)
        (n : Except String (List IOCountersStat)),
      updateSystemMetrics { cpu := .ok c, mem := .error e, disk := d, uptime := u, net := n } w =
        some { w with trace := w.trace ++ [Event.log ("Error getting memory info: " ++ e)] }) ∧
    (∀ (w : World) (e : String) (c : List ℚ) (m : ℚ) (u : Except String ℕ)
        (n : Except String (List IOCountersStat)),
      updateSystemMetrics { cpu := .ok c, mem := .ok m, disk := .error e, uptime := u, net := n } w =
        some { w with trace := w.trace ++ [Event.log ("Error getting disk info: " ++ e)] }) ∧
    (∀ (w : World) (e : String) (c : List ℚ) (m d : ℚ)
        (n : Except String (List IOCountersStat)),
      updateSystemMetrics { cpu := .ok c, mem := .ok m, disk := .ok d, uptime := .error e, net := n } w =
        some { w with trace := w.trace ++ [Event.log ("Error getting system uptime: " ++ e)] }) :=
  ⟨fun _ _ _ _ _ _ => rfl, fun _ _ _ _ _ _ => rfl, fun _ _ _ _ _ _ => rfl, fun _ _ _ _ _ _ => rfl⟩

/-- Claim C3: in a cycle where all queries succeed and a stored previous
counter is zero, the network string is `Sent: 0.00 MB/s, Received: 0.00 MB/s`
whatever the current counters are, and the title shows it after `Network: `;
a non-zero rate requires both previous counters to be non-zero. -/
theorem cold_start_suppression (w : World) (cpu0 : ℚ) (cpus : List ℚ) (mem disk : ℚ) (up : ℕ)
    (c : IOCountersStat) (cs : List IOCountersStat) :
    ((w.prevNetSent = 0 ∨ w.prevNetRecv = 0) →
      networkUsage w.prevNetSent w.prevNetRecv c.BytesSent c.BytesRecv =
        "Sent: 0.00 MB/s, Received: 0.00 MB/s" ∧
      ∃ w1, updateSystemMetrics (okSample cpu0 cpus mem disk up c cs) w = some w1 ∧
        w1.menu.mNetwork = "Network: Sent: 0.00 MB/s, Received: 0.00 MB/s") ∧
    ((netSentSpeed w.prevNetSent w.prevNetRecv c.BytesSent ≠ 0 ∨
        netRecvSpeed w.prevNetSent w.prevNetRecv c.BytesRecv ≠ 0) →
      w.prevNetSent ≠ 0 ∧ w.prevNetRecv ≠ 0) := by
  constructor
  · intro h
    refine ⟨networkUsage_cold h _ _, _, updateSystemMetrics_okSample .., ?_⟩
    rw [setTitles_menu]
    simp only [networkUsage_cold h]
    decide
  · intro h
    by_contra hn
    rcases h with h | h
    · exact h (if_neg hn)
    · exact h (if_neg hn)

/-- Claim C3, witness: the first cycle after the reset in `onReady`, with
counters of several megabytes, shows a zero rate. -/
theorem cold_start_suppression_witness :
    (readyWorld.prevNetSent = 0 ∨ readyWorld.prevNetRecv = 0) ∧
    ∃ w1, updateSystemMetrics
        (okSample 12 [] 40 55 90125 { BytesSent := 5000000, BytesRecv := 7000000 } []) readyWorld
          = some w1 ∧
      w1.menu.mNetwork = "Network: Sent: 0.00 MB/s, Received: 0.00 MB/s" :=
  ⟨Or.inl rfl, ((cold_start_suppression readyWorld 12 [] 40 55 90125
    { BytesSent := 5000000, BytesRecv := 7000000 } []).1 (Or.inl rfl)).2⟩

/-- Claim C4 (amended): in a successful cycle where both previous counters are
non-zero, each current counter is at least its previous value and each
difference is at most `2^53`, the sent and received rates are the difference
divided by `1024 * 1024` and by the fixed `2`, and the network title renders
them with two decimals. -/
theorem rate_formula (w : World) (cpu0 : ℚ) (cpus : List ℚ) (mem disk : ℚ) (up : ℕ)
    (c : IOCountersStat) (cs : List IOCountersStat)
    (hs : w.prevNetSent ≠ 0) (hr : w.prevNetRecv ≠ 0)
    (ls : w.prevNetSent ≤ c.BytesSent) (lr : w.prevNetRecv ≤ c.BytesRecv)
    (bs : c.BytesSent < 2 ^ 64) (br : c.BytesRecv < 2 ^ 64)
    (ds : c.BytesSent - w.prevNetSent ≤ 2 ^ 53) (dr : c.BytesRecv - w.prevNetRecv ≤ 2 ^ 53) :
    netSentSpeed w.prevNetSent w.prevNetRecv c.BytesSent =
      ((c.BytesSent - w.prevNetSent : ℕ) : ℚ) / (1024 * 1024) / 2 ∧
    netRecvSpeed w.prevNetSent w.prevNetRecv c.BytesRecv =
      ((c.BytesRecv - w.prevNetRecv : ℕ) : ℚ) / (1024 * 1024) / 2 ∧
    ∃ w1, updateSystemMetrics (okSample cpu0 cpus mem disk up c cs) w = some w1 ∧
      w1.menu.mNetwork = "Network: " ++ ("Sent: " ++
        fmtFloat 2 (((c.BytesSent - w.prevNetSent : ℕ) : ℚ) / (1024 * 1024) / 2) ++
        " MB/s, Received: " ++
        fmtFloat 2 (((c.BytesRecv - w.prevNetRecv : ℕ) : ℚ) / (1024 * 1024) / 2) ++ " MB/s") := by
  have e1 : netSentSpeed w.prevNetSent w.prevNetRecv c.BytesSent =
      ((c.BytesSent - w.prevNetSent : ℕ) : ℚ) / (1024 * 1024) / 2 := by
    unfold netSentSpeed
    rw [if_pos ⟨hs, hr⟩, netSpeed_of_small ls bs ds]
  have e2 : netRecvSpeed w.prevNetSent w.prevNetRecv c.BytesRecv =
      ((c.BytesRecv - w.prevNetRecv : ℕ) : ℚ) / (1024 * 1024) / 2 := by
    unfold netRecvSpeed
    rw [if_pos ⟨hs, hr⟩, netSpeed_of_small lr br dr]
  refine ⟨e1, e2, _, updateSystemMetrics_okSample .., ?_⟩
  rw [setTitles_menu]
  simp only [networkUsage, e1, e2]

/-- Claim C4, witness: previous counters 1048576 and current sent counter
3145728 give `Sent: 1.00 MB/s`. -/
theorem rate_formula_witness :
    ((1048576 : ℕ) ≠ 0 ∧ (1048576 : ℕ) ≤ 3145728 ∧ (3145728 : ℕ) - 1048576 ≤ 2 ^ 53) ∧
    ∃ w1, updateSystemMetrics
        (okSample 12 [] 40 55 90125 { BytesSent := 3145728, BytesRecv := 1048576 } [])
        { readyWorld with prevNetSent := 1048576, prevNetRecv := 1048576 } = some w1 ∧
      w1.menu.mNetwork = "Network: Sent: 1.00 MB/s, Received: 0.00 MB/s" := by
  obtain ⟨-, -, w1, h1, h2⟩ := rate_formula
    { readyWorld with prevNetSent := 1048576, prevNetRecv := 1048576 } 12 [] 40 55 90125
    { BytesSent := 3145728, BytesRecv := 1048576 } []
    (by decide) (by decide) (by decide) (by decide) (by decide) (by decide)
    (by decide) (by decide)
  refine ⟨⟨by decide, by decide, by decide⟩, w1, h1, ?_⟩
  rw [h2]
  have a : (((3145728 - 1048576 : ℕ) : ℚ) / (1024 * 1024) / 2) = 1 := by norm_num
  have b : (((1048576 - 1048576 : ℕ) : ℚ) / (1024 * 1024) / 2) = 0 := by norm_num
  simp only [a, b, fmtFloat_two_one, fmtFloat_two_zero]
  decide

/-- Claim C4, counterexample: with previous counters 1 and a current sent
counter of `2^63 + 11241`, the difference is not a float64; the rate differs
from the quotient and is shown as `4398046511104.00`, where the quotient
rounds to `4398046511104.01`. -/
theorem rate_formula_inexact :
    (1 : ℕ) ≠ 0 ∧ 1 ≤ 9223372036854787049 ∧ 9223372036854787049 < 2 ^ 64 ∧
    netSentSpeed 1 1 9223372036854787049 ≠
      ((9223372036854787049 - 1 : ℕ) : ℚ) / (1024 * 1024) / 2 ∧
    fmtFloat 2 (netSentSpeed 1 1 9223372036854787049) = "4398046511104.00" ∧
    fmtFloat 2 (((9223372036854787049 - 1 : ℕ) : ℚ) / (1024 * 1024) / 2) =
      "4398046511104.01" := by
  have h : netSentSpeed 1 1 9223372036854787049 = 4503599627370501 / 1024 := by
    unfold netSentSpeed
    rw [if_pos (by decide), netSpeed_eq]
    have : subUint64 9223372036854787049 1 = 9223372036854787048 := by
      norm_num [subUint64]
    rw [this]
    push_cast
    rw [f64_large_example]
    norm_num
  refine ⟨by decide, by decide, by norm_num, ?_, ?_, ?_⟩
  · rw [h]; norm_num
  · rw [h, fmtFloat_two_eval 439804651110400 (by norm_num)
      (by rw [abs_lt]; constructor <;> norm_num)]
    decide
  · rw [fmtFloat_two_eval 439804651110401 (by norm_num)
      (by rw [abs_lt]; constructor <;> norm_num)]
    decide

/-- Claim C5: after a cycle in which all five queries succeed the stored
previous counters are the current counters of that cycle, whatever they were
before.  In a second successful cycle each rate is zero when a counter of the
first cycle is zero, and otherwise the float64 of the difference modulo `2^64`
between the second cycle's counter and the first cycle's counter, divided by
1024, 1024 and 2; the network title shows both with two decimals.  Where the
counters did not decrease and differ by at most `2^53` the rate is exactly
the difference divided by `1024 * 1024` and by 2. -/
theorem state_update (w : World) (cpu0 : ℚ) (cpus : List ℚ) (mem disk : ℚ) (up : ℕ)
    (c : IOCountersStat) (cs : List IOCountersStat)
    (cpu1 : ℚ) (cpus1 : List ℚ) (mem1 disk1 : ℚ) (up1 : ℕ)
    (c1 : IOCountersStat) (cs1 : List IOCountersStat) :
    ∃ w1, updateSystemMetrics (okSample cpu0 cpus mem disk up c cs) w = some w1 ∧
      w1.prevNetSent = c.BytesSent ∧ w1.prevNetRecv = c.BytesRecv ∧
      ∃ (w2 : World) (ds dr : ℕ),
        updateSystemMetrics (okSample cpu1 cpus1 mem1 disk1 up1 c1 cs1) w1 = some w2 ∧
        w2.prevNetSent = c1.BytesSent ∧ w2.prevNetRecv = c1.BytesRecv ∧
        (ds : ℤ) = ((c1.BytesSent : ℤ) - c.BytesSent) % 2 ^ 64 ∧
        (dr : ℤ) = ((c1.BytesRecv : ℤ) - c.BytesRecv) % 2 ^ 64 ∧
        w2.menu.mNetwork = "Network: " ++ ("Sent: " ++
          fmtFloat 2 (if c.BytesSent ≠ 0 ∧ c.BytesRecv ≠ 0 then
            f64OfUint64 ds / 1024 / 1024 / 2 else 0) ++
          " MB/s, Received: " ++
          fmtFloat 2 (if c.BytesSent ≠ 0 ∧ c.BytesRecv ≠ 0 then
            f64OfUint64 dr / 1024 / 1024 / 2 else 0) ++ " MB/s") ∧
        (c.BytesSent ≠ 0 ∧ c.BytesRecv ≠ 0 ∧
          c.BytesSent ≤ c1.BytesSent ∧ c1.BytesSent - c.BytesSent ≤ 2 ^ 53 ∧
          c.BytesRecv ≤ c1.BytesRecv ∧ c1.BytesRecv - c.BytesRecv ≤ 2 ^ 53 ∧
          c1.BytesSent < 2 ^ 64 ∧ c1.BytesRecv < 2 ^ 64 →
          w2.menu.mNetwork = "Network: " ++ ("Sent: " ++
            fmtFloat 2 (((c1.BytesSent - c.BytesSent : ℕ) : ℚ) / (1024 * 1024) / 2) ++
            " MB/s, Received: " ++
            fmtFloat 2 (((c1.BytesRecv - c.BytesRecv : ℕ) : ℚ) / (1024 * 1024) / 2) ++
            " MB/s")) := by
  obtain ⟨w1, h1, a1, a2, -⟩ := cycle_network w cpu0 cpus mem disk up c cs
  obtain ⟨w2, h2, b1, b2, hn⟩ := cycle_network w1 cpu1 cpus1 mem1 disk1 up1 c1 cs1
  rw [a1, a2] at hn
  refine ⟨w1, h1, a1, a2, w2, subUint64 c1.BytesSent c.BytesSent,
    subUint64 c1.BytesRecv c.BytesRecv, h2, b1, b2,
    subUint64_cast _ _, subUint64_cast _ _, ?_, ?_⟩
  · rw [hn, networkUsage_eq]
  · rintro ⟨k1, k2, k3, k4, k5, k6, k7, k8⟩
    rw [hn]
    simp only [networkUsage, netSentSpeed, netRecvSpeed]
    rw [if_pos ⟨k1, k2⟩, if_pos ⟨k1, k2⟩, netSpeed_of_small k3 k7 k4, netSpeed_of_small k5 k8 k6]

/-- Claim C5, witness: two cycles from the state at UI-ready; the second one
shows the 2 MiB sent since the first as `1.00 MB/s`. -/
theorem state_update_witness :
    ∃ w1 w2,
      updateSystemMetrics
        (okSample 12 [] 40 55 90125 { BytesSent := 1048576, BytesRecv := 1048576 } [])
        readyWorld = some w1 ∧
      w1.prevNetSent = 1048576 ∧ w1.prevNetRecv = 1048576 ∧
      updateSystemMetrics
        (okSample 13 [] 41 55 90127 { BytesSent := 3145728, BytesRecv := 1048576 } [])
        w1 = some w2 ∧
      w2.prevNetSent = 3145728 ∧ w2.prevNetRecv = 1048576 ∧
      w2.menu.mNetwork = "Network: Sent: 1.00 MB/s, Received: 0.00 MB/s" := by
  obtain ⟨w1, h1, a1, a2, w2, ds, dr, h2, b1, b2, -, -, -, hs⟩ :=
    state_update readyWorld 12 [] 40 55 90125 { BytesSent := 1048576, BytesRecv := 1048576 } []
      13 [] 41 55 90127 { BytesSent := 3145728, BytesRecv := 1048576 } []
  refine ⟨w1, w2, h1, a1, a2, h2, b1, b2, ?_⟩
  rw [hs ⟨by decide, by decide, by decide, by decide, by decide, by decide, by decide, by decide⟩]
  have a : (((3145728 - 1048576 : ℕ) : ℚ) / (1024 * 1024) / 2) = 1 := by norm_num
  have b : (((1048576 - 1048576 : ℕ) : ℚ) / (1024 * 1024) / 2) = 0 := by norm_num
  simp only [a, b, fmtFloat_two_one, fmtFloat_two_zero]
  decide

/-- Claim C6: for an uptime of `s` seconds with `s * 10^9 < 2^63` the uptime
string is `D d, H h, M m` with `D = s / 3600 / 24`, `H = s / 3600 % 24` and
`M = s / 60 % 60`; then `H < 24`, `M < 60` and
`86400 * D + 3600 * H + 60 * M ≤ s < 86400 * D + 3600 * H + 60 * M + 60`. -/
theorem uptime_breakdown (s : ℕ) (h : s * 10 ^ 9 < 2 ^ 63) :
    uptimeString s = toString (s / 3600 / 24) ++ " d, " ++ toString (s / 3600 % 24) ++ " h, " ++
      toString (s / 60 % 60) ++ " m" ∧
    s / 3600 % 24 < 24 ∧ s / 60 % 60 < 60 ∧
    86400 * (s / 3600 / 24) + 3600 * (s / 3600 % 24) + 60 * (s / 60 % 60) ≤ s ∧
    s < 86400 * (s / 3600 / 24) + 3600 * (s / 3600 % 24) + 60 * (s / 60 % 60) + 60 := by
  refine ⟨uptimeString_eq h, ?_, ?_, ?_, ?_⟩ <;> omega

/-- Claim C6, witness: 90125 seconds give `1 d, 1 h, 2 m`. -/
theorem uptime_breakdown_witness :
    90125 * 10 ^ 9 < 2 ^ 63 ∧ uptimeString 90125 = "1 d, 1 h, 2 m" := by
  refine ⟨by norm_num, ?_⟩
  rw [(uptime_breakdown 90125 (by norm_num)).1]
  decide

/-- Claim C7 (amended): a percentage `p` in `[0, 100]` is shown as the nearest
number of tenths `k`, a tie going to the even `k`, written with the integer
part, a point, exactly one digit and one percent sign, after the text
`CPU: `, `RAM: ` or `Disk: `. -/
theorem percent_format (p : ℚ) (h0 : 0 ≤ p) (h1 : p ≤ 100) :
    ∃ k : ℕ, |10 * p - k| ≤ 1 / 2 ∧ (|10 * p - k| = 1 / 2 → k % 2 = 0) ∧ k ≤ 1000 ∧
      fmtFloat 1 p ++ "%" = renderTenths k ∧
      (∀ (w : World) (cpus : List ℚ) (mem disk : ℚ) (up : ℕ) (c : IOCountersStat)
          (cs : List IOCountersStat),
        ∃ w1, updateSystemMetrics (okSample p cpus mem disk up c cs) w = some w1 ∧
          w1.menu.mCPU = "CPU: " ++ renderTenths k) ∧
      (∀ (w : World) (cpu0 : ℚ) (cpus : List ℚ) (disk : ℚ) (up : ℕ) (c : IOCountersStat)
          (cs : List IOCountersStat),
        ∃ w1, updateSystemMetrics (okSample cpu0 cpus p disk up c cs) w = some w1 ∧
          w1.menu.mRAM = "RAM: " ++ renderTenths k) ∧
      (∀ (w : World) (cpu0 : ℚ) (cpus : List ℚ) (mem : ℚ) (up : ℕ) (c : IOCountersStat)
          (cs : List IOCountersStat),
        ∃ w1, updateSystemMetrics (okSample cpu0 cpus mem p up c cs) w = some w1 ∧
          w1.menu.mDisk = "Disk: " ++ renderTenths k) := by
  have hk0 : 0 ≤ roundHalfEven (10 * p) :=
    le_roundHalfEven (k := 0) (by push_cast; linarith)
  have hk1 : roundHalfEven (10 * p) ≤ 1000 :=
    roundHalfEven_le (k := 1000) (by push_cast; linarith)
  have hc : (((roundHalfEven (10 * p)).toNat : ℕ) : ℚ) = (roundHalfEven (10 * p) : ℚ) := by
    have : (((roundHalfEven (10 * p)).toNat : ℕ) : ℤ) = roundHalfEven (10 * p) :=
      Int.toNat_of_nonneg hk0
    exact_mod_cast this
  have hf := fmtFloat_one h0
  refine ⟨(roundHalfEven (10 * p)).toNat, ?_, ?_, by omega, hf, ?_, ?_, ?_⟩
  · rw [hc]; exact abs_sub_roundHalfEven_le _
  · rw [hc]
    intro h
    have := roundHalfEven_even_of_tie h
    omega
  · intro w cpus mem disk up c cs
    refine ⟨_, updateSystemMetrics_okSample .., ?_⟩
    rw [setTitles_menu]
    simp only [String.append_assoc, hf]
  · intro w cpu0 cpus disk up c cs
    refine ⟨_, updateSystemMetrics_okSample .., ?_⟩
    rw [setTitles_menu]
    simp only [String.append_assoc, hf]
  · intro w cpu0 cpus mem up c cs
    refine ⟨_, updateSystemMetrics_okSample .., ?_⟩
    rw [setTitles_menu]
    simp only [String.append_assoc, hf]

/-- Claim C7, witness: 42.37 is shown as `42.4%`, both as the exact decimal
and as the float64 nearest to it. -/
theorem percent_format_witness :
    (0 : ℚ) ≤ 4237 / 100 ∧ (4237 / 100 : ℚ) ≤ 100 ∧
    fmtFloat 1 (4237 / 100) ++ "%" = "42.4%" ∧
    fmtFloat 1 (f64 (4237 / 100)) ++ "%" = "42.4%" := by
  have key : ∀ p : ℚ, 0 ≤ p → p ≤ 100 → |p - 4237 / 100| ≤ 1 / 1000 →
      fmtFloat 1 p ++ "%" = "42.4%" := by
    intro p h0 h1 hp
    obtain ⟨k, hk, -, -, hf, -⟩ := percent_format p h0 h1
    have : k = 424 := by
      rw [abs_le] at hk hp
      have a : (k : ℚ) < 425 := by linarith [hk.1, hp.2]
      have b : (423 : ℚ) < k := by linarith [hk.2, hp.1]
      have a1 : k < 425 := by exact_mod_cast a
      have b1 : 423 < k := by exact_mod_cast b
      omega
    rw [hf, this]
    decide
  have hx : (0 : ℚ) < 4237 / 100 := by norm_num
  have hb := abs_f64_sub_le (E := 5) hx (by norm_num)
  have hb1 : |f64 (4237 / 100) - 4237 / 100| ≤ 1 / 1000 :=
    le_trans hb (by norm_num)
  refine ⟨by norm_num, by norm_num, key _ (by norm_num) (by norm_num) (by norm_num), ?_⟩
  refine key _ (f64_nonneg hx.le) ?_ hb1
  rw [abs_le] at hb1
  linarith [hb1.2]

/-- Claim C7, counterexample: the percentage 0.25 lies halfway between 0.2 and
0.3; it is shown as `0.2%`, where rounding halves up gives `0.3%`. -/
theorem percent_tie_rounds_to_even :
    (0 : ℚ) ≤ 1 / 4 ∧ (1 / 4 : ℚ) ≤ 100 ∧
    fmtFloat 1 (1 / 4) ++ "%" = "0.2%" ∧
    renderTenths (roundHalfUp (10 * (1 / 4))).toNat = "0.3%" ∧
    ∃ w1, updateSystemMetrics
        (okSample (1 / 4) [] 40 55 90125 { BytesSent := 0, BytesRecv := 0 } []) readyWorld
          = some w1 ∧
      w1.menu.mCPU = "CPU: 0.2%" := by
  have e1 : fmtFloat 1 (1 / 4) ++ "%" = "0.2%" := by
    rw [fmtFloat_one (by norm_num)]
    have : roundHalfEven (10 * (1 / 4)) = 2 := by
      have e : (10 * (1 / 4) : ℚ) = ((2 : ℤ) : ℚ) + 1 / 2 := by norm_num
      rw [e, roundHalfEven_half]
      norm_num
    rw [this]
    decide
  refine ⟨by norm_num, by norm_num, e1, ?_, _, updateSystemMetrics_okSample .., ?_⟩
  · have : roundHalfUp (10 * (1 / 4)) = 3 := by
      unfold roundHalfUp
      norm_num
    rw [this]
    decide
  · rw [setTitles_menu]
    simp only [String.append_assoc, e1]
    decide

/-- Claim C8 (amended): the ticker passes through states `ws 0, ws 1, ...`,
starting at the state it is given.  Iteration `i` first calls
`updateSystemMetrics` on the answers `samples i` in the state `ws i`; the call
performs at least one action and never sleeps; then the ticker sleeps two
seconds, which gives `ws (i + 1)`.  So the first action after UI-ready belongs
to the first sample, and every sleep follows the sample of its own
iteration. -/
theorem ticker_samples_then_sleeps (n : ℕ) (samples : ℕ → Sample) (w : World)
    (h : ∀ i, i < n → (samples i).NonEmpty) :
    ∃ ws : ℕ → World, ws 0 = w ∧ tickerLoop n samples w = some (ws n) ∧
      (∀ i, i < n → ∃ (w1 : World) (b : List Event),
        updateSystemMetrics (samples i) (ws i) = some w1 ∧
        ws (i + 1) = w1.timeSleep (2 * Second) ∧
        b ≠ [] ∧ (∀ e ∈ b, e.isSleep = false) ∧ w1.trace = (ws i).trace ++ b ∧
        (ws (i + 1)).trace = (ws i).trace ++ b ++ [Event.sleep (2 * Second)]) ∧
      (0 < n → ∃ e rest, (ws n).trace = w.trace ++ e :: rest ∧ e.isSleep = false) := by
  obtain ⟨ws, h0, hn, hstep⟩ := tickerLoop_states n samples w h
  exact ⟨ws, h0, hn, hstep, fun hpos => tickerLoop_first_action n samples w (ws n) hn hpos⟩

/-- Claim C8, witness: two iterations with successful samples from the state
at UI-ready. -/
theorem ticker_samples_then_sleeps_witness :
    (∀ i, i < 2 → ((fun _ => okSample 0 [] 0 0 0 { BytesSent := 0, BytesRecv := 0 } []) i :
      Sample).NonEmpty) ∧
    ∃ ws : ℕ → World, ws 0 = readyWorld ∧
      tickerLoop 2 (fun _ => okSample 0 [] 0 0 0 { BytesSent := 0, BytesRecv := 0 } [])
        readyWorld = some (ws 2) ∧
      (∀ i, i < 2 → ∃ (w1 : World) (b : List Event),
        updateSystemMetrics (okSample 0 [] 0 0 0 { BytesSent := 0, BytesRecv := 0 } []) (ws i)
          = some w1 ∧
        ws (i + 1) = w1.timeSleep (2 * Second) ∧
        b ≠ [] ∧ (∀ e ∈ b, e.isSleep = false) ∧ w1.trace = (ws i).trace ++ b ∧
        (ws (i + 1)).trace = (ws i).trace ++ b ++ [Event.sleep (2 * Second)]) ∧
      ((0 : ℕ) < 2 → ∃ e rest, (ws 2).trace = readyWorld.trace ++ e :: rest ∧
        e.isSleep = false) :=
  have hne : ∀ i, i < 2 →
      ((fun _ => okSample 0 [] 0 0 0 { BytesSent := 0, BytesRecv := 0 } []) i :
        Sample).NonEmpty :=
    fun _ _ => ⟨by simp [okSample], by simp [okSample]⟩
  ⟨hne, ticker_samples_then_sleeps 2 _ readyWorld hne⟩

/-- Claim C8, counterexample: the first iteration after UI-ready performs the
five `SetTitle` calls of the sample first and the two-second sleep last. -/
theorem first_action_is_sample :
    ∃ w1, tickerLoop 1 (fun _ => okSample 0 [] 0 0 0 { BytesSent := 0, BytesRecv := 0 } [])
        readyWorld = some w1 ∧
      w1.trace = [Event.setTitle .mCPU "CPU: 0.0%", Event.setTitle .mRAM "RAM: 0.0%",
        Event.setTitle .mDisk "Disk: 0.0%",
        Event.setTitle .mNetwork "Network: Sent: 0.00 MB/s, Received: 0.00 MB/s",
        Event.setTitle .mUptime "Uptime: 0 d, 0 h, 0 m", Event.sleep 2000000000] ∧
      w1.trace.head? ≠ some (Event.sleep 2000000000) := by
  have ht : ∀ w1, tickerLoop 1 (fun _ => okSample 0 [] 0 0 0 { BytesSent := 0, BytesRecv := 0 } [])
        readyWorld = some w1 →
      w1.trace = [Event.setTitle .mCPU "CPU: 0.0%", Event.setTitle .mRAM "RAM: 0.0%",
        Event.setTitle .mDisk "Disk: 0.0%",
        Event.setTitle .mNetwork "Network: Sent: 0.00 MB/s, Received: 0.00 MB/s",
        Event.setTitle .mUptime "Uptime: 0 d, 0 h, 0 m", Event.sleep 2000000000] := by
    intro w1 hw
    simp only [tickerLoop, updateSystemMetrics_okSample] at hw
    have hw1 := (Option.some.inj hw).symm
    rw [hw1]
    simp only [World.timeSleep, setTitles_trace, readyWorld, List.nil_append,
      fmtFloat_one_zero, networkUsage_cold (Or.inl rfl), uptimeString_zero]
    decide
  refine ⟨_, rfl, ht _ rfl, ?_⟩
  rw [ht _ rfl]
  decide

/-- Claim C9: the candidates of `getIcon` are the six relative paths followed,
when `os.Executable` succeeds, by the same six joined to the directory of the
executable; `getIcon` returns the contents of the first candidate that can be
read, and it returns an error exactly when no candidate can be read. -/
theorem getIcon_first_readable (join : List String → String) (dir : String → String)
    (executable : Except String String) (readFile : String → Except String (List ℕ)) :
    (∀ execPath, candidatePaths join dir (.ok execPath) =
        ["gouge.png", "Resources/gouge.png", "../Resources/gouge.png",
         "gouge.icns", "Resources/gouge.icns", "../Resources/gouge.icns",
         join [dir execPath, "gouge.png"], join [dir execPath, "Resources", "gouge.png"],
         join [dir execPath, "..", "Resources", "gouge.png"],
         join [dir execPath, "gouge.icns"], join [dir execPath, "Resources", "gouge.icns"],
         join [dir execPath, "..", "Resources", "gouge.icns"]]) ∧
    (∀ err, candidatePaths join dir (.error err) =
        ["gouge.png", "Resources/gouge.png", "../Resources/gouge.png",
         "gouge.icns", "Resources/gouge.icns", "../Resources/gouge.icns"]) ∧
    (∀ pre p post icon, candidatePaths join dir executable = pre ++ p :: post →
        (∀ x ∈ pre, failed (readFile x) = true) → readFile p = .ok icon →
        (getIcon join dir executable readFile).1 = .ok icon) ∧
    (failed (getIcon join dir executable readFile).1 = true ↔
      ∀ p ∈ candidatePaths join dir executable, failed (readFile p) = true) := by
  refine ⟨fun _ => rfl, fun _ => rfl, ?_, ?_⟩
  · intro pre p post icon hc hpre hp
    unfold getIcon
    rw [hc]
    exact probe_of_first_readable readFile pre p post icon [] hpre hp
  · exact probe_failed_iff readFile _ []

/-- Claim C9, witness: with only `Resources/gouge.png` readable, `getIcon`
returns its contents. -/
theorem getIcon_first_readable_witness :
    (getIcon (String.intercalate "/") (fun _ => "/opt/gouge") (.ok "/opt/gouge/gouge")
      (fun p => if p = "Resources/gouge.png" then .ok [137, 80, 78, 71]
        else .error "no such file")).1 = .ok [137, 80, 78, 71] :=
  (getIcon_first_readable (String.intercalate "/") (fun _ => "/opt/gouge")
    (.ok "/opt/gouge/gouge")
    (fun p => if p = "Resources/gouge.png" then .ok [137, 80, 78, 71]
      else .error "no such file")).2.2.1
    ["gouge.png"] "Resources/gouge.png" _ [137, 80, 78, 71] rfl
    (by intro x hx; rw [List.mem_singleton.mp hx]; decide) (if_pos rfl)

/-- Claim C10 (amended): in a successful cycle with both previous counters
non-zero, the byte delta of each rate is the difference modulo `2^64`; the
rate is the float64 of that delta divided by `2^21`, it is never negative, and
the network title shows both rates with two decimals.  When a current counter
is below its previous value the delta is `2^64 + current - previous`, the rate
is positive and within `2^-11` of that delta divided by `2^21`, and it is at
least `2^42` when the counter fell by at most `2^63`. -/
theorem regression_rate (w : World) (cpu0 : ℚ) (cpus : List ℚ) (mem disk : ℚ) (up : ℕ)
    (c : IOCountersStat) (cs : List IOCountersStat)
    (hs : w.prevNetSent ≠ 0) (hr : w.prevNetRecv ≠ 0)
    (bps : w.prevNetSent < 2 ^ 64) (bpr : w.prevNetRecv < 2 ^ 64) :
    ∃ (w1 : World) (ds dr : ℕ),
      updateSystemMetrics (okSample cpu0 cpus mem disk up c cs) w = some w1 ∧
      (ds : ℤ) = ((c.BytesSent : ℤ) - w.prevNetSent) % 2 ^ 64 ∧
      (dr : ℤ) = ((c.BytesRecv : ℤ) - w.prevNetRecv) % 2 ^ 64 ∧
      netSentSpeed w.prevNetSent w.prevNetRecv c.BytesSent = f64OfUint64 ds / 2 ^ 21 ∧
      netRecvSpeed w.prevNetSent w.prevNetRecv c.BytesRecv = f64OfUint64 dr / 2 ^ 21 ∧
      w1.menu.mNetwork = "Network: " ++ ("Sent: " ++ fmtFloat 2 (f64OfUint64 ds / 2 ^ 21) ++
        " MB/s, Received: " ++ fmtFloat 2 (f64OfUint64 dr / 2 ^ 21) ++ " MB/s") ∧
      0 ≤ f64OfUint64 ds / 2 ^ 21 ∧ 0 ≤ f64OfUint64 dr / 2 ^ 21 ∧
      (c.BytesSent < w.prevNetSent →
        ds = 2 ^ 64 + c.BytesSent - w.prevNetSent ∧ 0 < f64OfUint64 ds / 2 ^ 21 ∧
        |f64OfUint64 ds / 2 ^ 21 - ((2 ^ 64 + c.BytesSent - w.prevNetSent : ℕ) : ℚ) / 2 ^ 21|
          ≤ 1 / 2 ^ 11 ∧
        (w.prevNetSent - c.BytesSent ≤ 2 ^ 63 → 2 ^ 42 ≤ f64OfUint64 ds / 2 ^ 21)) ∧
      (c.BytesRecv < w.prevNetRecv →
        dr = 2 ^ 64 + c.BytesRecv - w.prevNetRecv ∧ 0 < f64OfUint64 dr / 2 ^ 21 ∧
        |f64OfUint64 dr / 2 ^ 21 - ((2 ^ 64 + c.BytesRecv - w.prevNetRecv : ℕ) : ℚ) / 2 ^ 21|
          ≤ 1 / 2 ^ 11 ∧
        (w.prevNetRecv - c.BytesRecv ≤ 2 ^ 63 → 2 ^ 42 ≤ f64OfUint64 dr / 2 ^ 21)) := by
  obtain ⟨w1, h1, -, -, hn⟩ := cycle_network w cpu0 cpus mem disk up c cs
  have ds := subUint64_cast w.prevNetSent c.BytesSent
  have dr := subUint64_cast w.prevNetRecv c.BytesRecv
  have es : netSentSpeed w.prevNetSent w.prevNetRecv c.BytesSent =
      f64OfUint64 (subUint64 c.BytesSent w.prevNetSent) / 2 ^ 21 := by
    unfold netSentSpeed
    rw [if_pos ⟨hs, hr⟩, netSpeed_of_delta ds]; ring
  have er : netRecvSpeed w.prevNetSent w.prevNetRecv c.BytesRecv =
      f64OfUint64 (subUint64 c.BytesRecv w.prevNetRecv) / 2 ^ 21 := by
    unfold netRecvSpeed
    rw [if_pos ⟨hs, hr⟩, netSpeed_of_delta dr]; ring
  refine ⟨w1, _, _, h1, ds, dr, es, er, ?_, f64OfUint64_div_nonneg _, f64OfUint64_div_nonneg _,
    fun hlt => ?_, fun hlt => ?_⟩
  · rw [hn]
    simp only [networkUsage, es, er]
  · obtain ⟨a, b, d⟩ := rate_of_regression bps ds hlt
    exact ⟨a, b, d, rate_of_small_regression bps ds hlt⟩
  · obtain ⟨a, b, d⟩ := rate_of_regression bpr dr hlt
    exact ⟨a, b, d, rate_of_small_regression bpr dr hlt⟩

/-- Claim C10, witness: a cycle with previous counters 513049 and a current
sent counter of 1 shows a sent rate of `8796093022207.75 MB/s`. -/
theorem regression_rate_witness :
    ((513049 : ℕ) ≠ 0 ∧ (513049 : ℕ) < 2 ^ 64 ∧ (1 : ℕ) < 513049) ∧
    ∃ w1, updateSystemMetrics
        (okSample 12 [] 40 55 90125 { BytesSent := 1, BytesRecv := 513049 } [])
        { readyWorld with prevNetSent := 513049, prevNetRecv := 513049 } = some w1 ∧
      w1.menu.mNetwork = "Network: Sent: 8796093022207.75 MB/s, Received: 0.00 MB/s" := by
  obtain ⟨w1, ds, dr, h1, hds, hdr, -, -, hn, -⟩ := regression_rate
    { readyWorld with prevNetSent := 513049, prevNetRecv := 513049 } 12 [] 40 55 90125
    { BytesSent := 1, BytesRecv := 513049 } []
    (by decide) (by decide) (by norm_num) (by norm_num)
  refine ⟨⟨by decide, by norm_num, by decide⟩, w1, h1, ?_⟩
  have e1 : ds = 18446744073709038568 := by
    simp only at hds
    omega
  have e2 : dr = 0 := by
    simp only at hdr
    omega
  have z : fmtFloat 2 (f64OfUint64 0 / 2 ^ 21) = "0.00" := by
    have : f64OfUint64 0 / 2 ^ 21 = 0 := by
      unfold f64OfUint64
      simp [f64_zero]
    rw [this, fmtFloat_two_zero]
  rw [hn, e1, e2, fmtFloat_regress_example, z]
  decide

/-- Claim C10, counterexample: after a regression from 513049 to 1 the delta
`2^64 - 513048` is not a float64; the rate differs from the delta divided by
`2^21`, and the cycle shows it as `8796093022207.75`, where that quotient
rounds to `8796093022207.76`. -/
theorem regression_rate_inexact :
    (513049 : ℕ) ≠ 0 ∧ (1 : ℕ) < 513049 ∧
    netSentSpeed 513049 513049 1 ≠ ((2 ^ 64 + 1 - 513049 : ℕ) : ℚ) / 2 ^ 21 ∧
    fmtFloat 2 (netSentSpeed 513049 513049 1) = "8796093022207.75" ∧
    fmtFloat 2 (((2 ^ 64 + 1 - 513049 : ℕ) : ℚ) / 2 ^ 21) = "8796093022207.76" ∧
    ∃ w1, updateSystemMetrics
        (okSample 12 [] 40 55 90125 { BytesSent := 1, BytesRecv := 513049 } [])
        { readyWorld with prevNetSent := 513049, prevNetRecv := 513049 } = some w1 ∧
      w1.menu.mNetwork = "Network: Sent: 8796093022207.75 MB/s, Received: 0.00 MB/s" := by
  have h : netSentSpeed 513049 513049 1 = 9007199254740741 / 1024 := by
    unfold netSentSpeed
    rw [if_pos (by decide), netSpeed_eq]
    have : subUint64 1 513049 = 18446744073709038568 := by
      norm_num [subUint64]
    rw [this]
    push_cast
    rw [f64_regress_example]
    norm_num
  have hr : netRecvSpeed 513049 513049 513049 = 0 := by
    unfold netRecvSpeed
    rw [if_pos (by decide), netSpeed_eq]
    have : subUint64 513049 513049 = 0 := by
      norm_num [subUint64]
    rw [this]
    simp [f64_zero]
  have hf : fmtFloat 2 (netSentSpeed 513049 513049 1) = "8796093022207.75" := by
    rw [h, fmtFloat_two_eval 879609302220775 (by norm_num)
      (by rw [abs_lt]; constructor <;> norm_num)]
    decide
  refine ⟨by decide, by decide, ?_, hf, ?_, ?_⟩
  · rw [h]; norm_num
  · rw [fmtFloat_two_eval 879609302220776 (by norm_num)
      (by rw [abs_lt]; constructor <;> norm_num)]
    decide
  · obtain ⟨w1, h1, -, -, hn⟩ := cycle_network
      { readyWorld with prevNetSent := 513049, prevNetRecv := 513049 } 12 [] 40 55 90125
      { BytesSent := 1, BytesRecv := 513049 } []
    refine ⟨w1, h1, ?_⟩
    rw [hn]
    simp only [networkUsage, hf, hr, fmtFloat_two_zero]
    decide

end GOuge
